import Mathlib

/-!
Verification of SGSchemaSync's schema-to-artifact generation engine.

The development shallowly embeds the TypeScript sources:
  * src/helpers/generator-parts.ts : `_generateOperationTypes`,
    `_generateFunctionFactory`, `_generateHookFactory`,
    `filterAndPrefixDeclarations`,
  * src/helpers/generator-helpers.ts : `toTsIdentifier`, `toPascalCase`,
  * src/index.ts : the file-writing behaviour of `runGenerator`.

Modelling conventions (stated once, used throughout):
  * Emitted TypeScript text is modelled at whole-word granularity: a line is a
    list of tokens (`TLine`), a piece of emitted code a list of lines
    (`TsCode`).  The source's whole-word regex replacement
    (`new RegExp("\\b" + name + "\\b", "g")`) becomes per-token replacement,
    and first-occurrence `String.replace(name, prefixed)` becomes
    first-matching-token replacement.  Declaration names occur as whole
    tokens in emitted code, which is exactly the situation the source's
    regexes are written for.
  * A JavaScript `Set` of strings is modelled as an insertion-ordered
    duplicate-free `List String` (`setAdd`, membership).
  * The external declaration compiler (the `compile` call from
    json-schema-to-typescript) is an oracle parameter of type `Compiler`;
    `none` models a thrown compilation error.
  * String helpers from the JS runtime are re-implemented character-wise
    (`strHasPre` for `String.startsWith`, `dropStr` for the prefix-stripping
    `String.replace(schemaPrefix, "")` that the source only runs under a
    `startsWith` guard, `toUpperStr` for `String.toUpperCase`).
-/

/-! ## String helpers re-implemented over character lists -/

/-- Model of JS `p.startsWith(s)`/prefix tests, over character data. -/
def strHasPre (p s : String) : Bool := p.data.isPrefixOf s.data

/-- Drop the first `k` characters; used only under a `strHasPre` guard, where
it coincides with the source's `name.replace(schemaPrefix, "")`. -/
def dropStr (s : String) (k : Nat) : String := String.mk (s.data.drop k)

/-- Model of JS `String.prototype.toUpperCase` (ASCII use only). -/
def toUpperStr (s : String) : String := String.mk (s.data.map Char.toUpper)

/-! ## Token-level model of emitted TypeScript text -/

/-- One emitted line, as a list of whole-word tokens. -/
abbrev TLine := List String

/-- A fragment of emitted TypeScript code. -/
abbrev TsCode := List TLine

/-- Model of adding to a JS `Set<string>`: append if absent. -/
def setAdd (s : List String) (n : String) : List String :=
  if n ∈ s then s else s ++ [n]

/-- The source's `exportRegex = /^export (interface|type|enum) (\w+)/`:
a line matches iff it starts with `export`, a declaration kind, and a name;
the result is the captured name. -/
def declHead? (l : TLine) : Option String :=
  match l with
  | a :: kind :: name :: _ =>
      if a = "export" ∧ (kind = "interface" ∨ kind = "type" ∨ kind = "enum") then
        some name
      else none
  | _ => none

/-- First-occurrence replacement, the token-level counterpart of
`line.replace(currentName, prefixed)` in `filterAndPrefixDeclarations`. -/
def replaceFirstTok (old new : String) : TLine → TLine
  | [] => []
  | t :: ts => if t = old then new :: ts else t :: replaceFirstTok old new ts

/-- Whole-word global replacement, the token-level counterpart of
`line.replace(new RegExp("\\b" + original + "\\b", "g"), name)`. -/
def replaceTokAll (old new : String) (l : TLine) : TLine :=
  l.map fun t => if t = old then new else t

/-- The `seenNames.forEach` pass of `filterAndPrefixDeclarations`: for every
already-seen name that carries the schema prefix, rewrite whole-word
occurrences of its unprefixed original to the prefixed name.  The source
computes the original as `name.replace(schemaPrefix, "")` under the
`startsWith` guard, i.e. by dropping the prefix. -/
def applySeen (seen : List String) (pre : String) (l : TLine) : TLine :=
  seen.foldl
    (fun acc n =>
      if strHasPre pre n then replaceTokAll (dropStr n pre.length) n acc else acc)
    l

/-- Mutable state of `filterAndPrefixDeclarations`: the committed result
lines, the current declaration's buffer, the current declaration name, and
the shared seen-names registry. -/
structure FilterSt where
  result : TsCode
  buffer : TsCode
  currentName : Option String
  seen : List String
  deriving Repr, DecidableEq

/-- The source's `commitBuffer` closure: a named buffer is committed only if
its name is not yet seen (then the name is recorded); an unnamed buffer
(lines before the first declaration) is always kept. -/
def commitBuffer (st : FilterSt) : FilterSt :=
  match st.currentName with
  | some n =>
      if n ∈ st.seen then
        { st with buffer := [], currentName := none }
      else
        { result := st.result ++ st.buffer, buffer := [], currentName := none,
          seen := st.seen ++ [n] }
  | none =>
      { st with result := st.result ++ st.buffer, buffer := [], currentName := none }

/-- One iteration of the line loop of `filterAndPrefixDeclarations`.  On a
declaration head the previous buffer is committed; a head not yet carrying
the schema prefix is renamed in place and buffered without the seen-names
rewriting pass (the source's `continue`); every other line is run through
the seen-names rewriting pass and buffered.  The source's loop that rewrites
earlier buffer lines after a rename is vacuous there (the buffer holds only
the just-pushed line) and is therefore not represented. -/
def processLine (pre : String) (st : FilterSt) (l : TLine) : FilterSt :=
  match declHead? l with
  | some n =>
      let st1 := commitBuffer st
      if strHasPre pre n then
        let st2 := { st1 with currentName := some n }
        { st2 with buffer := st2.buffer ++ [applySeen st2.seen pre l] }
      else
        let prefixed := pre ++ n
        { st1 with buffer := st1.buffer ++ [replaceFirstTok n prefixed l],
                   currentName := some prefixed }
  | none =>
      { st with buffer := st.buffer ++ [applySeen st.seen pre l] }

/-- Result of `filterAndPrefixDeclarations`: the filtered code and the
updated (in the source: mutated in place) seen-names registry. -/
structure FilterOut where
  code : TsCode
  seen : List String
  deriving Repr, DecidableEq

/-- Embedding of `filterAndPrefixDeclarations` (generator-parts.ts): walk the
compiled fragment line by line, de-duplicate declarations against the shared
registry, prefix unprefixed declaration names with the schema prefix and
rewrite references to already-registered prefixed declarations. -/
def filterAndPrefixDeclarations (ts : TsCode) (seen0 : List String) (pre : String) :
    FilterOut :=
  let st := ts.foldl (processLine pre) ⟨[], [], none, seen0⟩
  let st1 := commitBuffer st
  ⟨st1.result, st1.seen⟩

/-! ## generator-helpers.ts -/

/-- Character class `[a-zA-Z0-9]` of the source's regexes. -/
def isAlnumChar (c : Char) : Bool := c.isAlpha || c.isDigit

/-- Interior pass of `toTsIdentifier`: replace each maximal run of characters
outside `[a-zA-Z0-9_]` by a single underscore (`replace(/[^a-zA-Z0-9_]+/g, "_")`).
The flag records whether the previous character belonged to such a run. -/
def collapseSeps (prevSep : Bool) : List Char → List Char
  | [] => []
  | c :: cs =>
      if isAlnumChar c || c = '_' then c :: collapseSeps false cs
      else if prevSep then collapseSeps true cs
      else '_' :: collapseSeps true cs

/-- Embedding of `toTsIdentifier` (generator-helpers.ts): strip leading and
trailing non-alphanumerics, collapse interior separator runs to `_`, and
prepend `_` when the result is empty or starts with a digit. -/
def toTsIdentifier (s : String) : String :=
  if s = "" then "_"
  else
    let stripped :=
      (((s.data.dropWhile (fun c => !isAlnumChar c)).reverse.dropWhile
          (fun c => !isAlnumChar c)).reverse)
    let cleaned := String.mk (collapseSeps false stripped)
    if cleaned = "" then "_" ++ cleaned
    else if (match cleaned.data with | c :: _ => c.isDigit | [] => false) then
      "_" ++ cleaned
    else cleaned

/-- Split at every character outside `[a-zA-Z0-9]` (JS `split(/[^a-zA-Z0-9]/)`,
which produces empty parts for adjacent separators). -/
def splitNonAlnum (cur : List Char) : List Char → List (List Char)
  | [] => [cur.reverse]
  | c :: cs =>
      if isAlnumChar c then splitNonAlnum (c :: cur) cs
      else cur.reverse :: splitNonAlnum [] cs

/-- JS `part ? part.charAt(0).toUpperCase() + part.slice(1) : ""`. -/
def capitalizePart (p : List Char) : String :=
  match p with
  | [] => ""
  | c :: cs => String.mk (c.toUpper :: cs)

/-- Embedding of `toPascalCase` (generator-helpers.ts). -/
def toPascalCase (s : String) : String :=
  if s = "" then "Type"
  else String.join ((splitNonAlnum [] s.data).map capitalizePart)

/-! ## Data model (openapi-types shapes, restricted to the fields the
generator reads) -/

/-- A JSON-Schema-shaped fragment.  Its internal structure is irrelevant to
the generator except for the query-parameters object it synthesizes itself;
`leaf` stands for any schema taken verbatim from the spec. -/
inductive JSchema where
  | leaf (tag : String)
  | stringSchema
  | objectSchema (properties : List (String × JSchema)) (required : List String)
  deriving Repr

/-- The `content["application/json"]` slot of a request body or response:
present content with an optional `schema` field. -/
structure JsonContent where
  jsonSchema : Option JSchema
  deriving Repr

/-- An OpenAPI response object; `content = none` models an absent (falsy)
`content` field, as in a 204-style response. -/
structure ResponseObject where
  content : Option JsonContent
  deriving Repr

/-- An OpenAPI request body object; `hasContent` models the source's
`"content" in operation.requestBody` check and `jsonSchema` the
`content?.["application/json"]?.schema` lookup. -/
structure RequestBodyObj where
  hasContent : Bool
  jsonSchema : Option JSchema
  deriving Repr

/-- An OpenAPI parameter object (`location` is the `in` field). -/
structure ParameterObject where
  name : String
  location : String
  required : Bool
  schema : Option JSchema
  deriving Repr

/-- The slice of an OpenAPI operation object that the generator reads.
`responses` keeps the enumeration order of `for (const statusCode in ...)`. -/
structure OperationObject where
  requestBody : Option RequestBodyObj
  responses : List (String × ResponseObject)
  parameters : List ParameterObject
  deriving Repr

/-- The `OperationInfo` record of src/index.ts (`method` is stored lowercase,
as enumerated from the OpenAPI path item keys). -/
structure OperationInfo where
  path : String
  method : String
  operation : OperationObject
  deriving Repr

/-- The configuration fields of `ResolvedPackageConfig` that
`_generateOperationTypes` reads. -/
structure GenCfg where
  operationTypePre : Option String
  schemaTypePre : Option String
  deriving Repr

/-- The source's `opPrefix`: `packageConfig.operationTypePrefix` is truthy
(`none` and `""` are falsy) ? `toPascalCase(...) + "_"` : `""`. -/
def opPreOf (cfg : GenCfg) : String :=
  match cfg.operationTypePre with
  | some p => if p = "" then "" else toPascalCase p ++ "_"
  | none => ""

/-- The source's `schemaPrefix = packageConfig.schemaTypePrefix || "SSGEN_"`. -/
def schemaPreOf (cfg : GenCfg) : String :=
  match cfg.schemaTypePre with
  | some p => if p = "" then "SSGEN_" else p
  | none => "SSGEN_"

/-- The external json-schema-to-typescript `compile` call, as an oracle from
(schema, target name) to emitted code; `none` models a thrown error.  The
`components` spread and compile options are absorbed into the oracle. -/
abbrev Compiler := JSchema → String → Option TsCode

/-! ## _generateOperationTypes (generator-parts.ts) -/

/-- The two warning-comment lines appended on a request-body or parameters
compilation failure (the error message interpolation is not modelled). -/
def warnFailLines (typeName : String) : TsCode :=
  [ ["//", "⚠️", "Type", "generation", "failed", "for", typeName],
    ["//", "Check", "the", "OpenAPI", "spec,", "especially", "$refs."] ]

/-- The two warning-comment lines appended on a response compilation
failure, which additionally mention the status code. -/
def respWarnFailLines (typeName statusCode : String) : TsCode :=
  [ ["//", "⚠️", "Type", "generation", "failed", "for", typeName,
     "(status", statusCode ++ ")"],
    ["//", "Check", "the", "OpenAPI", "spec,", "especially", "$refs."] ]

/-- Result of one compile-or-skip-or-fail block of `_generateOperationTypes`
(`typeName`/`failed` play the role of `actualRequestBodyTypeName` /
`requestBodyFailed`, `actualParametersTypeName`/`parametersTypeFailed`, or
the response-loop updates, depending on the section). -/
structure FragResult where
  typesString : TsCode
  gen : List String
  typeName : Option String
  failed : Bool
  deriving Repr, DecidableEq

/-- The block that all three sections of `_generateOperationTypes` repeat
verbatim (factored here once): if the target name is already registered,
skip compilation and reuse it; otherwise compile, run the result through
`filterAndPrefixDeclarations` and register the name — or, on a compile
error, emit the given warning comment and report failure. -/
def compileFragment (compileO : Compiler) (sch : JSchema) (typeName : String)
    (schemaPre : String) (gen : List String) (warn : TsCode) : FragResult :=
  if typeName ∈ gen then ⟨[], gen, some typeName, false⟩
  else
    match compileO sch typeName with
    | some ts =>
        let f := filterAndPrefixDeclarations ts gen schemaPre
        ⟨f.code, setAdd f.seen typeName, some typeName, false⟩
    | none => ⟨warn, gen, none, true⟩

/-- The request-body section of `_generateOperationTypes` (lines 47-70): if a
request body with an application/json schema is declared, run the compile
block for `<opPrefix><base>_Request`. -/
def requestBodyStep (compileO : Compiler) (requestBody : Option RequestBodyObj)
    (opPre typeBaseName schemaPre : String) (gen : List String) : FragResult :=
  match requestBody with
  | some rb =>
      if rb.hasContent then
        match rb.jsonSchema with
        | some sch =>
            compileFragment compileO sch (opPre ++ typeBaseName ++ "_Request")
              schemaPre gen (warnFailLines (opPre ++ typeBaseName ++ "_Request"))
        | none => ⟨[], gen, none, false⟩
      else ⟨[], gen, none, false⟩
  | none => ⟨[], gen, none, false⟩

/-- State threaded through the response loop of `_generateOperationTypes`. -/
structure RespState where
  typesString : TsCode
  gen : List String
  primaryResponseTypeName : Option String
  primaryResponseTypeGenerated : Bool
  responseTypeFailed : Bool
  deriving Repr, DecidableEq

/-- The source's `primarySuccessCode = method === "post" ? "201" : "200"`. -/
def primarySuccessCode (method : String) : String :=
  if method = "post" then "201" else "200"

/-- One iteration of the response loop of `_generateOperationTypes`
(lines 72-117).  Only 2xx status codes are considered; the primary success
code gets the unsuffixed `_Response` name, others `_Response_<code>`; a
content-less primary resolves to the literal "void"; a primary with content
but no application/json schema sets the failure flag.  The compile block is
the shared `compileFragment`; its outcome feeds the two primary-only flag
updates exactly as in the source. -/
def responseStep (compileO : Compiler) (opPre typeBaseName schemaPre method : String)
    (st : RespState) (entry : String × ResponseObject) : RespState :=
  let statusCode := entry.1
  let response := entry.2
  if strHasPre "2" statusCode then
    let isPrimary := statusCode = primarySuccessCode method
    match response.content with
    | some c =>
        match c.jsonSchema with
        | some responseSchema =>
            let typeName := opPre ++ typeBaseName ++ "_Response" ++
              (if isPrimary then "" else "_" ++ statusCode)
            let st1 :=
              if isPrimary then { st with primaryResponseTypeName := some typeName }
              else st
            let fr := compileFragment compileO responseSchema typeName schemaPre
              st1.gen (respWarnFailLines typeName statusCode)
            { st1 with
                typesString := st1.typesString ++ fr.typesString,
                gen := fr.gen,
                primaryResponseTypeGenerated :=
                  if isPrimary ∧ fr.failed = false then true
                  else st1.primaryResponseTypeGenerated,
                responseTypeFailed :=
                  if isPrimary ∧ fr.failed = true then true
                  else st1.responseTypeFailed }
        | none =>
            if isPrimary then { st with responseTypeFailed := true } else st
    | none =>
        if isPrimary then
          { st with primaryResponseTypeName := some "void",
                    primaryResponseTypeGenerated := true }
        else st
  else st

/-- Model of inserting into a plain JS object used as a map: overwrite in
place if the key exists, else append (preserving key order). -/
def jsObjInsert (m : List (String × JSchema)) (k : String) (v : JSchema) :
    List (String × JSchema) :=
  if m.any (fun kv => kv.1 = k) then
    m.map (fun kv => if kv.1 = k then (k, v) else kv)
  else m ++ [(k, v)]

/-- The `queryParams.forEach` loop synthesizing the parameters object schema:
properties map each parameter name to its schema (defaulting to a string
schema), and `required` collects the names of required parameters. -/
def buildParamsSchema (qps : List ParameterObject) :
    List (String × JSchema) × List String :=
  qps.foldl
    (fun acc p =>
      (jsObjInsert acc.1 p.name (p.schema.getD JSchema.stringSchema),
       if p.required then acc.2 ++ [p.name] else acc.2))
    ([], [])

/-- The query-parameters section of `_generateOperationTypes` (lines
119-156): synthesize an object schema from the `in: "query"` parameters and
run the compile block for `<opPrefix><base>_Parameters`. -/
def parametersStep (compileO : Compiler) (parameters : List ParameterObject)
    (opPre typeBaseName schemaPre : String) (gen : List String) : FragResult :=
  let queryParams := parameters.filter (fun p => p.location = "query")
  if 0 < queryParams.length then
    let built := buildParamsSchema queryParams
    if 0 < built.1.length then
      let paramsSchema := JSchema.objectSchema built.1 built.2
      compileFragment compileO paramsSchema (opPre ++ typeBaseName ++ "_Parameters")
        schemaPre gen (warnFailLines (opPre ++ typeBaseName ++ "_Parameters"))
    else ⟨[], gen, none, false⟩
  else ⟨[], gen, none, false⟩

/-- The `GeneratedOperationTypes` record returned by
`_generateOperationTypes`. -/
structure GeneratedOperationTypes where
  typesString : TsCode
  requestBodyTypeName : Option String
  parametersTypeName : Option String
  primaryResponseTypeName : Option String
  requestBodyFailed : Bool
  parametersTypeFailed : Bool
  responseTypeFailed : Bool
  primaryResponseTypeGenerated : Bool
  deriving Repr, DecidableEq

/-- Embedding of `_generateOperationTypes` (generator-parts.ts): request body
first, then the response loop, then the query-parameters object, threading
the shared `generatedTypeNames` registry; returns the record together with
the updated registry (mutated in place in the source). -/
def _generateOperationTypes (compileO : Compiler) (opInfo : OperationInfo)
    (typeBaseName : String) (gen0 : List String) (cfg : GenCfg) :
    GeneratedOperationTypes × List String :=
  let opPre := opPreOf cfg
  let schemaPre := schemaPreOf cfg
  let rb := requestBodyStep compileO opInfo.operation.requestBody opPre typeBaseName
              schemaPre gen0
  let rs := opInfo.operation.responses.foldl
              (responseStep compileO opPre typeBaseName schemaPre opInfo.method)
              ⟨[], rb.gen, none, false, false⟩
  let ps := parametersStep compileO opInfo.operation.parameters opPre typeBaseName
              schemaPre rs.gen
  (⟨rb.typesString ++ rs.typesString ++ ps.typesString,
    rb.typeName, ps.typeName, rs.primaryResponseTypeName,
    rb.failed, ps.failed, rs.responseTypeFailed,
    rs.primaryResponseTypeGenerated⟩,
   ps.gen)

/-! ## _generateFunctionFactory (generator-parts.ts) -/

/-- The `{param}` → `${toTsIdentifier(param)}` rewriting of
`processedPath.replace(/\x7b([^\x7d]+)\x7d/g, ...)`; the optional accumulator
holds the characters read since an opening brace (reversed).  An unmatched or
empty `\x7b...\x7d` group is left verbatim, as the regex would. -/
def interpGo (acc : Option (List Char)) : List Char → List Char
  | [] =>
      match acc with
      | none => []
      | some collected => '\x7b' :: collected.reverse
  | c :: cs =>
      match acc with
      | none =>
          if c = '\x7b' then interpGo (some []) cs
          else c :: interpGo none cs
      | some collected =>
          if c = '\x7d' then
            if collected.isEmpty then '\x7b' :: '\x7d' :: interpGo none cs
            else
              '$' :: '\x7b' ::
                ((toTsIdentifier (String.mk collected.reverse)).data ++
                  ('\x7d' :: interpGo none cs))
          else interpGo (some (c :: collected)) cs

/-- URL template interpolation used for the accessor's `url` field. -/
def interpolatePath (processedPath : String) : String :=
  String.mk (interpGo none processedPath.data)

/-- The parts of the accessor factory template that
`_generateFunctionFactory` computes before rendering the final string; each
field holds exactly the text interpolated into the template. -/
structure FunctionFactoryParts where
  hasRequestBody : Bool
  defaultResponseType : String
  defaultRequestBodyType : String
  defaultQueryParamsType : String
  needsTypesImport : Bool
  innerFuncParamsList : List String
  callSpecificOptionsOmitParts : String
  urlPath : String
  sendsData : Bool
  sendsParams : Bool
  authRequire : Bool
  methodUpper : String
  warnings : List String
  bodyReturnStatement : String
  deriving Repr, DecidableEq

/-- Embedding of `_generateFunctionFactory` (generator-parts.ts lines
172-317) as the structured parts of the emitted factory text. -/
def _generateFunctionFactory (opInfo : OperationInfo) (tagImportName : String)
    (processedPath : String) (authRequire : Bool)
    (actualRequestBodyTypeName actualParametersTypeName
     primaryResponseTypeName : Option String)
    (requestBodyFailed parametersTypeFailed responseTypeFailed
     primaryResponseTypeGenerated : Bool) : FunctionFactoryParts :=
  let pathParams := opInfo.operation.parameters.filter (fun p => p.location = "path")
  let hasRequestBody := opInfo.operation.requestBody.isSome
  let defaultResponseType :=
    if primaryResponseTypeName = some "void" then "void"
    else
      match primaryResponseTypeName with
      | some n => if primaryResponseTypeGenerated then tagImportName ++ "." ++ n else "any"
      | none => "any"
  let defaultRequestBodyType :=
    match actualRequestBodyTypeName with
    | some n => tagImportName ++ "." ++ n
    | none => if hasRequestBody then "any" else "never"
  let defaultQueryParamsType :=
    match actualParametersTypeName with
    | some n => tagImportName ++ "." ++ n
    | none => "never"
  let needsTypesImport :=
    (primaryResponseTypeName.isSome ∧ primaryResponseTypeName ≠ some "void") ∨
      actualRequestBodyTypeName.isSome ∨ actualParametersTypeName.isSome
  let pathParamsForInnerFuncSignature :=
    pathParams.map (fun p => toTsIdentifier p.name ++ ": string")
  let callSpecificOptionsOmitParts :=
    "\x27method\x27 | \x27url\x27 | \x27authRequire\x27" ++
      (if hasRequestBody then " | \x27data\x27" else "") ++
      (if actualParametersTypeName.isSome then " | \x27params\x27" else "")
  let callSpecificOptionsType :=
    "Partial<Omit<SGSyncRequesterOptions<TRequestBody, TQueryParams>, " ++
      callSpecificOptionsOmitParts ++ ">>"
  let innerFuncParamsList :=
    pathParamsForInnerFuncSignature ++
      (if hasRequestBody then ["data: TRequestBody"] else []) ++
      (if actualParametersTypeName.isSome then ["params: TQueryParams"] else []) ++
      ["callSpecificOptions?: " ++ callSpecificOptionsType,
       "customFlags?: Record<string, any>"]
  let warnings :=
    (if requestBodyFailed then
      ["// ⚠️ WARNING: Request Body type generation failed for this operation. \x27TRequestBody\x27 default may be incorrect."]
     else []) ++
    (if parametersTypeFailed then
      ["// ⚠️ WARNING: Parameters type generation failed for this operation. \x27TQueryParams\x27 default may be incorrect."]
     else []) ++
    (if responseTypeFailed ∨
        (¬ primaryResponseTypeGenerated ∧ primaryResponseTypeName ≠ some "void") then
      ["// ⚠️ WARNING: Response type generation failed or schema missing for this operation. \x27TResponse\x27 default may be incorrect."]
     else [])
  { hasRequestBody := hasRequestBody
    defaultResponseType := defaultResponseType
    defaultRequestBodyType := defaultRequestBodyType
    defaultQueryParamsType := defaultQueryParamsType
    needsTypesImport := needsTypesImport
    innerFuncParamsList := innerFuncParamsList
    callSpecificOptionsOmitParts := callSpecificOptionsOmitParts
    urlPath := interpolatePath processedPath
    sendsData := hasRequestBody
    sendsParams := actualParametersTypeName.isSome
    authRequire := authRequire
    methodUpper := toUpperStr opInfo.method
    warnings := warnings
    bodyReturnStatement :=
      if defaultResponseType = "void" then
        "return undefined as TResponse; // Explicitly return undefined cast to TResponse"
      else "return response.data;" }

/-! ## _generateHookFactory (generator-parts.ts) -/

/-- Model of JS `Array.prototype.join(sep)`. -/
def joinSep (sep : String) : List String → String
  | [] => ""
  | [a] => a
  | a :: rest => a ++ sep ++ joinSep sep rest

/-- The parts of the hook factory template that `_generateHookFactory`
computes before rendering the final string.  Query-shape-only fields
(`queryKeyTypeParts`, `runtimeQueryKeyParts`, `specificQueryKeyTypeName`) are
empty for mutations, mirroring the unset template variables. -/
structure HookFactoryParts where
  isMutation : Bool
  hasRequestBody : Bool
  defaultResponseType : String
  defaultRequestBodyType : String
  defaultQueryParamsType : String
  defaultMutationTVariables : String
  hookGenerics : List String
  hookParams : List String
  mutationFnExecutionParams : List String
  sgFunctionCallArgs : List String
  specificQueryKeyTypeName : String
  queryKeyTypeParts : List String
  runtimeQueryKeyParts : List String
  deriving Repr, DecidableEq

/-- Embedding of `_generateHookFactory` (generator-parts.ts lines 320-560)
as the structured parts of the emitted hook text. -/
def _generateHookFactory (opInfo : OperationInfo) (hookFactoryName : String)
    (tagImportName sanitizedTagName endpointBaseName : String)
    (actualRequestBodyTypeName actualParametersTypeName
     primaryResponseTypeName : Option String)
    (primaryResponseTypeGenerated : Bool)
    (pathParams : List ParameterObject) : HookFactoryParts :=
  let method := opInfo.method
  let isMutation := ["POST", "PUT", "DELETE", "PATCH"].contains (toUpperStr method)
  let hasRequestBody := opInfo.operation.requestBody.isSome
  let defaultResponseType :=
    if primaryResponseTypeName = some "void" then "void"
    else
      match primaryResponseTypeName with
      | some n => if primaryResponseTypeGenerated then tagImportName ++ "." ++ n else "any"
      | none => "any"
  let defaultRequestBodyType :=
    match actualRequestBodyTypeName with
    | some n => tagImportName ++ "." ++ n
    | none => if hasRequestBody then "any" else "never"
  let defaultQueryParamsType :=
    match actualParametersTypeName with
    | some n => tagImportName ++ "." ++ n
    | none => "never"
  let defaultQueryTData := defaultResponseType
  let defaultMutationTData := defaultResponseType
  let defaultMutationTVariables :=
    if hasRequestBody ∧ actualParametersTypeName.isSome then defaultRequestBodyType
    else if hasRequestBody then defaultRequestBodyType
    else if actualParametersTypeName.isSome then defaultQueryParamsType
    else "void"
  let pathParamsForFactorySignatureList :=
    pathParams.map (fun p => toTsIdentifier p.name ++ ": string")
  let pathParamsForFactorySignatureString :=
    joinSep ", " pathParamsForFactorySignatureList
  let pathParamArgsForSgFunction := pathParams.map (fun p => toTsIdentifier p.name)
  let baseQueryKeyParts :=
    ["\x27" ++ sanitizedTagName ++ "\x27", "\x27" ++ endpointBaseName ++ "\x27"]
  if isMutation then
    let hookGenerics :=
      ["TData = " ++ defaultMutationTData, "TError = Error",
       "TVariables = " ++ defaultMutationTVariables] ++
        (if hasRequestBody ∧ actualParametersTypeName.isSome then
          ["TQueryParams = " ++ defaultQueryParamsType]
         else [])
    let mutationHookParams :=
      (if pathParamsForFactorySignatureString ≠ "" then
        [pathParamsForFactorySignatureString]
       else []) ++
      (if hasRequestBody ∧ actualParametersTypeName.isSome then
        ["queryParams: TQueryParams"]
       else []) ++
      ["mutationOptions?: Omit<UseMutationOptions<TData, TError, TVariables, unknown>, \x27mutationFn\x27>",
       "customFlags?: Record<string, any>"]
    let mutationFnExecutionParams :=
      if defaultMutationTVariables ≠ "void" then ["variables: TVariables"] else []
    let sgFunctionCallArgs :=
      pathParamArgsForSgFunction ++
        (if hasRequestBody then ["variables"] else []) ++
        (if actualParametersTypeName.isSome then
          [if hasRequestBody then "queryParams" else "variables"]
         else []) ++
        ["undefined", "customFlags"]
    { isMutation := true
      hasRequestBody := hasRequestBody
      defaultResponseType := defaultResponseType
      defaultRequestBodyType := defaultRequestBodyType
      defaultQueryParamsType := defaultQueryParamsType
      defaultMutationTVariables := defaultMutationTVariables
      hookGenerics := hookGenerics
      hookParams := mutationHookParams
      mutationFnExecutionParams := mutationFnExecutionParams
      sgFunctionCallArgs := sgFunctionCallArgs
      specificQueryKeyTypeName := ""
      queryKeyTypeParts := []
      runtimeQueryKeyParts := [] }
  else
    let hookGenerics :=
      ["TQueryData = " ++ defaultQueryTData, "TError = Error"] ++
        (if actualParametersTypeName.isSome then
          ["TQueryParams extends " ++ defaultQueryParamsType ++ " = " ++
            defaultQueryParamsType]
         else [])
    let queryKeyTypeParts :=
      baseQueryKeyParts ++ pathParams.map (fun _ => "string") ++
        (if actualParametersTypeName.isSome then [defaultQueryParamsType] else [])
    let specificQueryKeyTypeName := "_" ++ toPascalCase hookFactoryName ++ "_QueryKey"
    let runtimeQueryKeyParts :=
      baseQueryKeyParts ++ pathParamArgsForSgFunction ++
        (if actualParametersTypeName.isSome then ["queryParams"] else [])
    let queryHookParams :=
      (if pathParamsForFactorySignatureString ≠ "" then
        [pathParamsForFactorySignatureString]
       else []) ++
      (if actualParametersTypeName.isSome then ["queryParams: TQueryParams"] else []) ++
      ["queryOptions?: Omit<UseQueryOptions<" ++ defaultQueryTData ++
         ", TError, TQueryData, " ++ specificQueryKeyTypeName ++
         ">, \x27queryKey\x27 | \x27queryFn\x27>",
       "customFlags?: Record<string, any>"]
    let sgFunctionCallArgs :=
      pathParamArgsForSgFunction ++
        (if actualParametersTypeName.isSome then ["queryParams"] else []) ++
        ["undefined", "customFlags"]
    { isMutation := false
      hasRequestBody := hasRequestBody
      defaultResponseType := defaultResponseType
      defaultRequestBodyType := defaultRequestBodyType
      defaultQueryParamsType := defaultQueryParamsType
      defaultMutationTVariables := defaultMutationTVariables
      hookGenerics := hookGenerics
      hookParams := queryHookParams
      mutationFnExecutionParams := []
      sgFunctionCallArgs := sgFunctionCallArgs
      specificQueryKeyTypeName := specificQueryKeyTypeName
      queryKeyTypeParts := queryKeyTypeParts
      runtimeQueryKeyParts := runtimeQueryKeyParts }

/-! ## Wiring the resolver into the factory generators -/

/-- Modelled from the spec: the generator module that wires the Operation
Type Resolver into the factory generators (`generateFilesForTag` in
src/generator.ts) is not among the provided sources.  Per the spec (§2,
§4.3-4.5) the per-operation `OperationTypeSet` — names and failure flags —
is "created per operation by the Operation Type Resolver; consumed by both
factory generators", and the hook factory receives the operation's
`in: "path"` parameters.  This definition is that pass-through and nothing
more; all behaviour lives in the three embedded generator functions. -/
def generateOperationArtifacts (compileO : Compiler) (opInfo : OperationInfo)
    (typeBaseName tagImportName sanitizedTagName endpointBaseName
     hookFactoryName processedPath : String) (authRequire : Bool)
    (gen0 : List String) (cfg : GenCfg) :
    GeneratedOperationTypes × FunctionFactoryParts × HookFactoryParts × List String :=
  let r := _generateOperationTypes compileO opInfo typeBaseName gen0 cfg
  let t := r.1
  let fn := _generateFunctionFactory opInfo tagImportName processedPath authRequire
              t.requestBodyTypeName t.parametersTypeName t.primaryResponseTypeName
              t.requestBodyFailed t.parametersTypeFailed t.responseTypeFailed
              t.primaryResponseTypeGenerated
  let pathParams := opInfo.operation.parameters.filter (fun p => p.location = "path")
  let hk := _generateHookFactory opInfo hookFactoryName tagImportName sanitizedTagName
              endpointBaseName t.requestBodyTypeName t.parametersTypeName
              t.primaryResponseTypeName t.primaryResponseTypeGenerated pathParams
  (t, fn, hk, r.2)

/-! ## Runtime semantics of the emitted query key -/

/-- A runtime value appearing in the hook's query-key array: a string (tag
literal, endpoint literal, or path-parameter argument) or the
query-parameters object argument. -/
inductive KeyVal where
  | strVal (s : String)
  | objVal (payload : String)
  deriving Repr, DecidableEq

/-- Whether an emitted query-key part is a single-quoted string literal. -/
def isQuotedTok (s : String) : Bool :=
  match s.data with
  | c :: _ => c = '\x27'
  | [] => false

/-- The string denoted by a single-quoted literal part. -/
def unquoteTok (s : String) : String := String.mk ((s.data.drop 1).dropLast)

/-- Runtime evaluation of one part of the emitted
`const queryKey = [...] as const;`: a quoted part denotes its string, the
identifier `queryParams` denotes the hook's query-parameters argument, and
any other identifier denotes the hook's path-parameter argument bound to
that (sanitized) name. -/
def evalKeyPart (pathEnv : List (String × String)) (qpVal : KeyVal)
    (part : String) : KeyVal :=
  if isQuotedTok part then KeyVal.strVal (unquoteTok part)
  else if part = "queryParams" then qpVal
  else
    match pathEnv.lookup part with
    | some v => KeyVal.strVal v
    | none => KeyVal.strVal ""

/-- Runtime evaluation of the whole emitted query-key array. -/
def evalQueryKey (parts : List String) (pathEnv : List (String × String))
    (qpVal : KeyVal) : List KeyVal :=
  parts.map (evalKeyPart pathEnv qpVal)

/-! ## runGenerator (src/index.ts): file-writing behaviour -/

/-- A file system, as an association of paths to contents. -/
abbrev FileSys := List (String × String)

/-- Overwriting write (`fs.writeFile`). -/
def fsWrite (fs : FileSys) (p c : String) : FileSys :=
  if fs.any (fun e => e.1 = p) then
    fs.map (fun e => if e.1 = p then (p, c) else e)
  else fs ++ [(p, c)]

/-- Existence check (`fsSync.existsSync`). -/
def fsExists (fs : FileSys) (p : String) : Bool := fs.any (fun e => e.1 = p)

/-- Read a file's content, if present. -/
def fsRead (fs : FileSys) (p : String) : Option String := fs.lookup p

/-- The slice of `ResolvedPackageConfig` that the file-writing part of
`runGenerator` reads.  `customRequesterFilePath = none` models an absent or
empty (falsy) `customRequesterConfig.filePath`. -/
structure RunCfg where
  useDefaultRequester : Bool
  customRequesterFilePath : Option String
  customRequesterExportName : String
  scaffoldRequesterAdapter : Bool
  generatedClientModuleBasename : String
  generateFunctions : Bool
  generateHooks : Bool
  deriving Repr, DecidableEq

/-- POSIX model of `path.isAbsolute`. -/
def isAbsolutePath (p : String) : Bool := strHasPre "/" p

/-- POSIX model of `path.join`/`path.resolve(dir, relative)`. -/
def pathJoin (a b : String) : String := a ++ "/" ++ b

/-- The source's `actualAbsoluteCustomRequesterPath` computation (index.ts
lines 43-51): resolved only when a custom requester with a truthy
`filePath` is configured. -/
def customRequesterPath? (cfg : RunCfg) (baseOutputDir : String) : Option String :=
  if cfg.useDefaultRequester then none
  else
    match cfg.customRequesterFilePath with
    | some fp => some (if isAbsolutePath fp then fp else pathJoin baseOutputDir fp)
    | none => none

/-- Per-tag outputs of `generateFilesForTag` (that module is not among the
provided sources, so its contents are opaque inputs here; only the writing
behaviour of index.ts is modelled). -/
structure TagGenData where
  sanitizedTagName : String
  typesContent : String
  functionsContent : String
  hooksContent : String
  functionFactoryNames : List String
  hookFactoryNames : List String
  deriving Repr, DecidableEq

/-- JS `s.replace(/^create/, "")`-style prefix strip. -/
def stripPreStr (pre s : String) : String :=
  if strHasPre pre s then dropStr s pre.length else s

/-- JS `s.replace(/Function$/, "")`-style suffix strip. -/
def stripSufStr (suf s : String) : String :=
  if suf.data.isSuffixOf s.data then
    String.mk (s.data.take (s.data.length - suf.data.length))
  else s

/-- The orchestrator client module content (index.ts lines 144-216),
assembled per run from the configuration and the tag's factory name lists.
The requester wiring lines are represented by their import/instantiation
heads; the content is a pure function of its arguments, which is what the
overwrite claims are about. -/
def clientModuleContent (cfg : RunCfg) (tag : TagGenData)
    (hooksFileGenerated : Bool) : String :=
  let clientModuleFileName := cfg.generatedClientModuleBasename ++ ".ts"
  let requesterInstanceName :=
    if cfg.useDefaultRequester then "configuredRequester"
    else cfg.customRequesterExportName
  String.intercalate "\n"
    (["// " ++ clientModuleFileName ++ " - Generated by sg-schema-sync. DO NOT EDIT.",
      "import type SGSyncRequester from sg-schema-sync/requester-types"] ++
     (if cfg.generateFunctions ∧ tag.functionFactoryNames ≠ [] then
       ["import * as functionFactories from ./functions"]
      else []) ++
     (if cfg.generateHooks ∧ hooksFileGenerated ∧ tag.hookFactoryNames ≠ [] then
       ["import * as hookFactories from ./hooks"]
      else []) ++
     (if cfg.useDefaultRequester then
       ["const configuredRequester = createDefaultSGSyncRequester(...)"]
      else
       ["import " ++ requesterInstanceName ++ " from the custom requester module"]) ++
     (if cfg.generateFunctions ∧ tag.functionFactoryNames ≠ [] then
       tag.functionFactoryNames.map (fun n =>
         "export const " ++ stripSufStr "Function" (stripPreStr "create" n) ++
           " = functionFactories." ++ n ++ "(" ++ requesterInstanceName ++ ");")
      else []) ++
     (if cfg.generateHooks ∧ hooksFileGenerated ∧ tag.hookFactoryNames ≠ [] then
       tag.hookFactoryNames.map (fun n =>
         "export const " ++ stripSufStr "Hook" (stripPreStr "create" n) ++
           " = hookFactories." ++ n ++ "(" ++ requesterInstanceName ++ ");")
      else []))

/-- The per-tag barrel content (index.ts lines 221-222). -/
def indexFileContent (cfg : RunCfg) : String :=
  "export * from ./types\nexport * from ./" ++ cfg.generatedClientModuleBasename

/-- The custom-requester scaffold content (index.ts
`generateCustomRequesterScaffold`); the long commented example block is
elided, keeping the header and the placeholder export that the function
always emits. -/
def scaffoldContent (exportName : String) : String :=
  String.intercalate "\n"
    ["// Generated by sg-schema-sync. Implement your custom requester here.",
     "// You need to implement the " ++ exportName ++ " function to match the SGSyncRequester interface.",
     "export const " ++ exportName ++ " = async (options) => \x7b throw new Error(...); \x7d;"]

/-- The writes performed for one tag directory (index.ts lines 100-229):
types.ts and functions.ts always, hooks.ts when hook generation is on and
the content is non-blank, then the always-overwritten orchestrator client
module and the barrel index.ts. -/
def writeTagFiles (cfg : RunCfg) (baseOutputDir : String) (fs : FileSys)
    (tag : TagGenData) : FileSys :=
  let tagOutputDir := pathJoin baseOutputDir tag.sanitizedTagName
  let fs1 := fsWrite fs (pathJoin tagOutputDir "types.ts") tag.typesContent
  let fs2 := fsWrite fs1 (pathJoin tagOutputDir "functions.ts") tag.functionsContent
  let hooksFileGenerated := cfg.generateHooks ∧ tag.hooksContent.trim ≠ ""
  let fs3 :=
    if hooksFileGenerated then
      fsWrite fs2 (pathJoin tagOutputDir "hooks.ts") tag.hooksContent
    else fs2
  let fs4 := fsWrite fs3
    (pathJoin tagOutputDir (cfg.generatedClientModuleBasename ++ ".ts"))
    (clientModuleContent cfg tag hooksFileGenerated)
  fsWrite fs4 (pathJoin tagOutputDir "index.ts") (indexFileContent cfg)

/-- The file-writing behaviour of `runGenerator` (index.ts lines 100-262):
process every tag group in order, then scaffold the custom requester file
only when a custom requester is configured with a resolved path, scaffolding
is enabled and no file exists at that path.  Spec fetch, dereferencing,
Prettier and the fatal configuration-error paths (spec §7 categories 4-5)
are outside this model. -/
def runGenerator (cfg : RunCfg) (baseOutputDir : String) (tags : List TagGenData)
    (fs0 : FileSys) : FileSys :=
  let fs1 := tags.foldl (writeTagFiles cfg baseOutputDir) fs0
  match customRequesterPath? cfg baseOutputDir with
  | some scafPath =>
      if cfg.scaffoldRequesterAdapter ∧ ¬ fsExists fs1 scafPath then
        fsWrite fs1 scafPath (scaffoldContent cfg.customRequesterExportName)
      else fs1
  | none => fs1

/-! ## Statement-support definitions -/

/-- Number of lines of a code fragment that declare the name `n`. -/
def headCount (code : TsCode) (n : String) : Nat :=
  code.countP (fun l => declHead? l == some n)

/-- A line is wellformed for a schema prefix when, if it is a declaration
head, its name neither already carries the prefix nor collides with the
tokens of the head syntax itself.  Output of json-schema-to-typescript
always satisfies this: generated declaration names are sanitized TypeScript
identifiers and never reserved words, and never carry the generator's own
schema prefix. -/
def wfLine (pre : String) (l : TLine) : Prop :=
  match declHead? l with
  | some n =>
      strHasPre pre n = false ∧
        n ∉ (["export", "interface", "type", "enum"] : List String)
  | none => True

instance (pre : String) (l : TLine) : Decidable (wfLine pre l) := by
  unfold wfLine
  exact match declHead? l with
  | some _ => inferInstance
  | none => inferInstance

/-- A schema prefix is reserved-safe when it is non-empty and no head-syntax
token starts with it (true of the default `SSGEN_` and of any sensible
Pascal-case prefix). -/
def reservedSafePre (pre : String) : Prop :=
  pre ≠ "" ∧ strHasPre pre "export" = false ∧ strHasPre pre "interface" = false ∧
    strHasPre pre "type" = false ∧ strHasPre pre "enum" = false

instance (pre : String) : Decidable (reservedSafePre pre) := by
  unfold reservedSafePre; infer_instance

/-- A compiler oracle is wellformed for a prefix when every fragment it
emits consists of wellformed lines. -/
def wfCompiler (pre : String) (c : Compiler) : Prop :=
  ∀ s n ts, c s n = some ts → ∀ l ∈ ts, wfLine pre l

/-- Modelled from the spec: the per-tag generation loop (in the absent
src/generator.ts) processes a tag's operations strictly sequentially against
the single shared name registry (spec §5), concatenating each operation's
emitted declarations.  Each list entry pairs an operation with its
`TypeBaseName`. -/
def runOperationTypes (compileO : Compiler) (cfg : GenCfg)
    (ops : List (OperationInfo × String)) (gen0 : List String) :
    TsCode × List String :=
  ops.foldl
    (fun acc op =>
      let r := _generateOperationTypes compileO op.1 op.2 acc.2 cfg
      (acc.1 ++ r.1.typesString, r.2))
    ([], gen0)

/-- The directory of a tag group's files. -/
def tagDir (baseOutputDir : String) (tag : TagGenData) : String :=
  pathJoin baseOutputDir tag.sanitizedTagName

/-- The orchestrator client module path of a tag group. -/
def clientPath (cfg : RunCfg) (baseOutputDir : String) (tag : TagGenData) : String :=
  pathJoin (tagDir baseOutputDir tag) (cfg.generatedClientModuleBasename ++ ".ts")

/-- The five file paths `writeTagFiles` may write for one tag. -/
def tagFilePaths (cfg : RunCfg) (baseOutputDir : String) (tag : TagGenData) :
    List String :=
  [pathJoin (tagDir baseOutputDir tag) "types.ts",
   pathJoin (tagDir baseOutputDir tag) "functions.ts",
   pathJoin (tagDir baseOutputDir tag) "hooks.ts",
   clientPath cfg baseOutputDir tag,
   pathJoin (tagDir baseOutputDir tag) "index.ts"]

/-- All paths the tag loop may write during a run. -/
def allTagPaths (cfg : RunCfg) (baseOutputDir : String) (tags : List TagGenData) :
    List String :=
  tags.flatMap (tagFilePaths cfg baseOutputDir)

/-- Token-level view of one `applySeen` pass: since each seen-name rewriting
acts tokenwise, the whole pass is a map of this per-token fold. -/
def applySeenTok (seen : List String) (pre : String) (t : String) : String :=
  seen.foldl
    (fun acc n =>
      if strHasPre pre n then (if acc = dropStr n pre.length then n else acc) else acc)
    t

/-- Invariant of the `filterAndPrefixDeclarations` line loop relative to the
incoming registry `seen0`: the registry is duplicate-free and only extended;
committed declaration heads are registered, were not registered on entry and
are pairwise distinct; and the buffer consists of its (possible) head line
followed by non-head lines. -/
def filterInv (seen0 : List String) (st : FilterSt) : Prop :=
  st.seen.Nodup ∧ (∃ new, st.seen = seen0 ++ new) ∧
  (∀ l ∈ st.result, ∀ n, declHead? l = some n → n ∈ st.seen ∧ n ∉ seen0) ∧
  (∀ n, headCount st.result n ≤ 1) ∧
  (match st.currentName with
   | some m =>
       ∃ hd tl, st.buffer = hd :: tl ∧ declHead? hd = some m ∧
         ∀ l ∈ tl, declHead? l = none
   | none => ∀ l ∈ st.buffer, declHead? l = none)

/-- Invariant of the response loop of `_generateOperationTypes` relative to
the registry `genStart` it started from. -/
def respInv (genStart : List String) (st : RespState) : Prop :=
  st.gen.Nodup ∧ (∃ new, st.gen = genStart ++ new) ∧
  (∀ l ∈ st.typesString, ∀ n, declHead? l = some n → n ∈ st.gen ∧ n ∉ genStart) ∧
  (∀ n, headCount st.typesString n ≤ 1)

/-! ## Helper lemmas: strings -/

theorem strData_append (a b : String) : (a ++ b).data = a.data ++ b.data := by
  cases a; cases b; rfl

theorem strMk_data (s : String) : String.mk s.data = s := by cases s; rfl

theorem strHasPre_self_append (pre n : String) : strHasPre pre (pre ++ n) = true := by
  simp only [strHasPre, strData_append]
  exact List.isPrefixOf_iff_prefix.mpr (List.prefix_append _ _)

theorem dropStr_self_append (pre n : String) : dropStr (pre ++ n) pre.length = n := by
  simp only [dropStr, strData_append]
  have h : pre.length = pre.data.length := rfl
  rw [h, List.drop_left, strMk_data]

theorem append_ne_self_of_ne_empty (pre n : String) (h : pre ≠ "") : pre ++ n ≠ n := by
  intro he
  apply h
  have hd := congrArg String.data he
  rw [strData_append] at hd
  have hnil : pre.data = [] := List.append_left_eq_self.mp hd
  cases pre with
  | mk d => simp only at hnil; rw [hnil]

theorem ne_of_strHasPre (pre m n : String) (hm : strHasPre pre m = true)
    (hn : strHasPre pre n = false) : m ≠ n := by
  intro h; rw [h] at hm; simp [hm] at hn

/-! ## Helper lemmas: the seen-names rewriting pass -/

theorem applySeenTok_cons (m : String) (rest : List String) (pre t : String) :
    applySeenTok (m :: rest) pre t =
      applySeenTok rest pre
        (if strHasPre pre m then (if t = dropStr m pre.length then m else t) else t) := rfl

theorem applySeen_cons (m : String) (rest : List String) (pre : String) (l : TLine) :
    applySeen (m :: rest) pre l =
      applySeen rest pre
        (if strHasPre pre m then replaceTokAll (dropStr m pre.length) m l else l) := rfl

theorem applySeen_eq_map (seen : List String) (pre : String) :
    ∀ l : TLine, applySeen seen pre l = l.map (applySeenTok seen pre) := by
  induction seen with
  | nil =>
      intro l
      have h1 : applySeenTok [] pre = fun t => t := rfl
      have h2 : applySeen [] pre l = l := rfl
      rw [h2, h1, List.map_id']
  | cons m rest ih =>
      intro l
      rw [applySeen_cons]
      by_cases hm : strHasPre pre m = true
      · rw [if_pos hm, ih]
        unfold replaceTokAll
        rw [List.map_map]
        apply List.map_congr_left
        intro t _
        rw [applySeenTok_cons, if_pos hm]
        rfl
      · rw [if_neg hm, ih]
        apply List.map_congr_left
        intro t _
        rw [applySeenTok_cons, if_neg hm]

theorem applySeenTok_cases (seen : List String) (pre : String) (t : String) :
    applySeenTok seen pre t = t ∨
      (strHasPre pre (applySeenTok seen pre t) = true ∧ applySeenTok seen pre t ∈ seen) := by
  induction seen generalizing t with
  | nil => left; rfl
  | cons m rest ih =>
      rw [applySeenTok_cons]
      by_cases hm : strHasPre pre m = true
      · rw [if_pos hm]
        by_cases ht : t = dropStr m pre.length
        · rw [if_pos ht]
          rcases ih m with h | ⟨h1, h2⟩
          · right; rw [h]; exact ⟨hm, List.mem_cons_self m rest⟩
          · right; exact ⟨h1, List.mem_cons_of_mem m h2⟩
        · rw [if_neg ht]
          rcases ih t with h | ⟨h1, h2⟩
          · left; exact h
          · right; exact ⟨h1, List.mem_cons_of_mem m h2⟩
      · rw [if_neg hm]
        rcases ih t with h | ⟨h1, h2⟩
        · left; exact h
        · right; exact ⟨h1, List.mem_cons_of_mem m h2⟩

theorem applySeenTok_pres_ne (seen : List String) (pre n : String)
    (hn : strHasPre pre n = false) :
    ∀ t, t ≠ n → applySeenTok seen pre t ≠ n := by
  intro t ht
  rcases applySeenTok_cases seen pre t with h | ⟨h1, _⟩
  · rw [h]; exact ht
  · exact ne_of_strHasPre pre _ n h1 hn

theorem applySeenTok_ne_orig (seen : List String) (pre n : String)
    (hn : strHasPre pre n = false) (hne : pre ≠ "") (hmem : (pre ++ n) ∈ seen) :
    ∀ t, applySeenTok seen pre t ≠ n := by
  induction seen with
  | nil => cases hmem
  | cons m rest ih =>
      intro t
      rw [applySeenTok_cons]
      rcases List.mem_cons.mp hmem with hm | hm
      · subst hm
        rw [if_pos (strHasPre_self_append pre n), dropStr_self_append pre n]
        by_cases ht : t = n
        · rw [if_pos ht]
          exact applySeenTok_pres_ne rest pre n hn _ (append_ne_self_of_ne_empty pre n hne)
        · rw [if_neg ht]
          exact applySeenTok_pres_ne rest pre n hn _ ht
      · exact ih hm _

/-! ## Helper lemmas: declaration heads -/

theorem declHead?_eq_some_iff (l : TLine) (n : String) :
    declHead? l = some n ↔
      ∃ kind rest, l = "export" :: kind :: n :: rest ∧
        (kind = "interface" ∨ kind = "type" ∨ kind = "enum") := by
  constructor
  · intro h
    match l with
    | [] => cases h
    | [a] => cases h
    | [a, b] => cases h
    | a :: b :: c :: rest =>
        dsimp [declHead?] at h
        by_cases hc : a = "export" ∧ (b = "interface" ∨ b = "type" ∨ b = "enum")
        · rw [if_pos hc] at h
          obtain ⟨ha, hb⟩ := hc
          exact ⟨b, rest, by rw [ha, Option.some_inj.mp h], hb⟩
        · rw [if_neg hc] at h; cases h
  · rintro ⟨kind, rest, rfl, hk⟩
    dsimp [declHead?]
    rw [if_pos ⟨rfl, hk⟩]

theorem declHead?_applySeen_none (seen : List String) (pre : String) (l : TLine)
    (hres : reservedSafePre pre) (h : declHead? l = none) :
    declHead? (applySeen seen pre l) = none := by
  rw [applySeen_eq_map]
  obtain ⟨hne, hexp, hint, htyp, henu⟩ := hres
  by_contra hc
  rw [← Ne, Option.ne_none_iff_exists'] at hc
  obtain ⟨n, hn⟩ := hc
  rw [declHead?_eq_some_iff] at hn
  obtain ⟨kind, rest, heq, hk⟩ := hn
  match l with
  | [] => simp at heq
  | [a] => simp at heq
  | [a, b] => simp at heq
  | a :: b :: c :: lrest =>
      simp only [List.map_cons, List.cons.injEq] at heq
      obtain ⟨ha, hb, hcn, _⟩ := heq
      have ha' : a = "export" := by
        rcases applySeenTok_cases seen pre a with hcase | ⟨h1, _⟩
        · rw [← hcase, ha]
        · rw [ha] at h1; rw [h1] at hexp; cases hexp
      have hb' : b = kind := by
        rcases applySeenTok_cases seen pre b with hcase | ⟨h1, _⟩
        · rw [← hcase, hb]
        · exfalso
          rw [hb] at h1
          rcases hk with hk | hk | hk <;> rw [hk] at h1
          · rw [h1] at hint; cases hint
          · rw [h1] at htyp; cases htyp
          · rw [h1] at henu; cases henu
      subst ha'
      dsimp [declHead?] at h
      rw [if_pos ⟨rfl, hb' ▸ hk⟩] at h
      cases h

/-! ## Helper lemmas: head counting -/

theorem headCount_append (a b : TsCode) (n : String) :
    headCount (a ++ b) n = headCount a n + headCount b n := by
  simp [headCount, List.countP_append]

theorem headCount_eq_zero_iff (code : TsCode) (n : String) :
    headCount code n = 0 ↔ ∀ l ∈ code, declHead? l ≠ some n := by
  simp [headCount, List.countP_eq_zero]

theorem headCount_cons (l : TLine) (code : TsCode) (n : String) :
    headCount (l :: code) n =
      headCount code n + (if declHead? l = some n then 1 else 0) := by
  simp only [headCount, List.countP_cons]
  by_cases h : declHead? l = some n
  · rw [if_pos h]
    have heq : (declHead? l == some n) = true := by rw [h]; simp
    rw [heq]; simp
  · rw [if_neg h]
    have heq : (declHead? l == some n) = false := by
      rw [beq_eq_false_iff_ne]; exact h
    rw [heq]; simp

theorem headCount_nil (n : String) : headCount [] n = 0 := rfl

theorem head_none_ne_some (l : TLine) (n : String) (h : declHead? l = none) :
    declHead? l ≠ some n := by
  rw [h]; exact fun hc => Option.noConfusion hc

/-! ## Helper lemmas: the filter invariant -/

theorem commitBuffer_inv (seen0 : List String) (st : FilterSt)
    (h : filterInv seen0 st) : filterInv seen0 (commitBuffer st) := by
  obtain ⟨hnd, ⟨new, hext⟩, hheads, hcount, hbuf⟩ := h
  unfold commitBuffer
  cases hcn : st.currentName with
  | none =>
      rw [hcn] at hbuf
      dsimp at hbuf ⊢
      refine ⟨hnd, ⟨new, hext⟩, ?_, ?_, ?_⟩
      · intro l hl n hn
        rcases List.mem_append.mp hl with hl | hl
        · exact hheads l hl n hn
        · exact absurd hn (head_none_ne_some l n (hbuf l hl))
      · intro n
        rw [headCount_append]
        have hz : headCount st.buffer n = 0 :=
          (headCount_eq_zero_iff _ _).mpr (fun l hl => head_none_ne_some l n (hbuf l hl))
        rw [hz]
        exact hcount n
      · intro l hl
        cases hl
  | some m =>
      rw [hcn] at hbuf
      dsimp at hbuf ⊢
      obtain ⟨hd, tl, hbeq, hhd, htl⟩ := hbuf
      by_cases hm : m ∈ st.seen
      · rw [if_pos hm]
        exact ⟨hnd, ⟨new, hext⟩, hheads, hcount, fun l hl => by cases hl⟩
      · rw [if_neg hm]
        refine ⟨?_, ?_, ?_, ?_, ?_⟩
        · rw [List.nodup_append]
          exact ⟨hnd, List.nodup_singleton m,
            fun x hx hx1 => hm ((List.mem_singleton.mp hx1) ▸ hx)⟩
        · exact ⟨new ++ [m], by rw [hext, List.append_assoc]⟩
        · intro l hl n hn
          rcases List.mem_append.mp hl with hl | hl
          · obtain ⟨h1, h2⟩ := hheads l hl n hn
            exact ⟨List.mem_append_left _ h1, h2⟩
          · rw [hbeq] at hl
            rcases List.mem_cons.mp hl with rfl | hl
            · have : n = m := by rw [hhd] at hn; exact (Option.some_inj.mp hn).symm
              subst this
              refine ⟨List.mem_append_right _ (List.mem_singleton_self n), ?_⟩
              intro hn0
              exact hm (hext ▸ List.mem_append_left _ hn0)
            · exact absurd hn (head_none_ne_some l n (htl l hl))
        · intro n
          rw [headCount_append, hbeq, headCount_cons]
          have htlz : headCount tl n = 0 :=
            (headCount_eq_zero_iff _ _).mpr (fun l hl => head_none_ne_some l n (htl l hl))
          rw [htlz]
          by_cases hnm : n = m
          · subst hnm
            have hrz : headCount st.result n = 0 := by
              rw [headCount_eq_zero_iff]
              intro l hl hcontra
              exact hm (hheads l hl n hcontra).1
            rw [hrz, hhd, if_pos rfl]
          · have : declHead? hd ≠ some n := by
              rw [hhd]
              intro hc
              exact hnm (Option.some_inj.mp hc).symm
            rw [if_neg this]
            have := hcount n
            omega
        · intro l hl
          cases hl

theorem commitBuffer_clears (st : FilterSt) :
    (commitBuffer st).buffer = [] ∧ (commitBuffer st).currentName = none := by
  unfold commitBuffer
  cases st.currentName with
  | none => exact ⟨rfl, rfl⟩
  | some m =>
      dsimp
      by_cases hm : m ∈ st.seen
      · rw [if_pos hm]; exact ⟨rfl, rfl⟩
      · rw [if_neg hm]; exact ⟨rfl, rfl⟩

theorem commitBuffer_keeps (st : FilterSt) :
    (commitBuffer st).result = st.result ++ st.buffer ∨
      (commitBuffer st).result = st.result := by
  unfold commitBuffer
  cases st.currentName with
  | none => left; rfl
  | some m =>
      dsimp
      by_cases hm : m ∈ st.seen
      · rw [if_pos hm]; right; rfl
      · rw [if_neg hm]; left; rfl

theorem replaceFirstTok_head (kind n x : String) (rest : TLine)
    (h0 : n ≠ "export") (h1 : n ≠ kind) :
    replaceFirstTok n x ("export" :: kind :: n :: rest) = "export" :: kind :: x :: rest := by
  unfold replaceFirstTok
  rw [if_neg (fun he => h0 he.symm)]
  unfold replaceFirstTok
  rw [if_neg (fun he => h1 he.symm)]
  unfold replaceFirstTok
  rw [if_pos rfl]

theorem processLine_none_eq (pre : String) (st : FilterSt) (l : TLine)
    (h : declHead? l = none) :
    processLine pre st l =
      { st with buffer := st.buffer ++ [applySeen st.seen pre l] } := by
  unfold processLine
  rw [h]

theorem processLine_head_plain_eq (pre : String) (st : FilterSt) (l : TLine)
    (n : String) (h : declHead? l = some n) (hn : strHasPre pre n = false) :
    processLine pre st l =
      { commitBuffer st with
          buffer := (commitBuffer st).buffer ++ [replaceFirstTok n (pre ++ n) l],
          currentName := some (pre ++ n) } := by
  unfold processLine
  rw [h]
  dsimp
  rw [hn]
  rw [if_neg (fun hc => Bool.noConfusion hc)]

theorem processLine_inv (pre : String) (seen0 : List String)
    (hres : reservedSafePre pre) (st : FilterSt) (l : TLine) (hw : wfLine pre l)
    (h : filterInv seen0 st) : filterInv seen0 (processLine pre st l) := by
  cases hdl : declHead? l with
  | none =>
      rw [processLine_none_eq pre st l hdl]
      obtain ⟨hnd, hext, hheads, hcount, hbuf⟩ := h
      refine ⟨hnd, hext, hheads, hcount, ?_⟩
      dsimp
      cases hcn : st.currentName with
      | none =>
          rw [hcn] at hbuf
          dsimp at hbuf ⊢
          intro l2 hl2
          rcases List.mem_append.mp hl2 with h2 | h2
          · exact hbuf l2 h2
          · rw [List.mem_singleton.mp h2]
            exact declHead?_applySeen_none _ _ _ hres hdl
      | some m =>
          rw [hcn] at hbuf
          dsimp at hbuf ⊢
          obtain ⟨hd, tl, hbeq, hhd, htl⟩ := hbuf
          refine ⟨hd, tl ++ [applySeen st.seen pre l],
            by rw [hbeq, List.cons_append], hhd, ?_⟩
          intro l2 hl2
          rcases List.mem_append.mp hl2 with h2 | h2
          · exact htl l2 h2
          · rw [List.mem_singleton.mp h2]
            exact declHead?_applySeen_none _ _ _ hres hdl
  | some n =>
      have hw' : strHasPre pre n = false ∧
          n ∉ (["export", "interface", "type", "enum"] : List String) := by
        unfold wfLine at hw
        rw [hdl] at hw
        exact hw
      obtain ⟨hnpre, hnres⟩ := hw'
      have hn1 : n ≠ "export" := by intro hc; subst hc; simp at hnres
      rw [processLine_head_plain_eq pre st l n hdl hnpre]
      have hc1 := commitBuffer_inv seen0 st h
      obtain ⟨hbe, hce⟩ := commitBuffer_clears st
      obtain ⟨hnd1, hext1, hheads1, hcount1, _⟩ := hc1
      refine ⟨hnd1, hext1, hheads1, hcount1, ?_⟩
      dsimp
      obtain ⟨kind, rest, hleq, hk⟩ := (declHead?_eq_some_iff l n).mp hdl
      have hkn : n ≠ kind := by
        rcases hk with hk | hk | hk <;> rw [hk] <;>
          (intro hc; subst hc; simp at hnres)
      have hupd : replaceFirstTok n (pre ++ n) l =
          "export" :: kind :: (pre ++ n) :: rest := by
        rw [hleq]
        exact replaceFirstTok_head kind n (pre ++ n) rest hn1 hkn
      refine ⟨"export" :: kind :: (pre ++ n) :: rest, [], ?_, ?_, ?_⟩
      · rw [hbe, hupd]
        rfl
      · exact (declHead?_eq_some_iff _ _).mpr ⟨kind, rest, rfl, hk⟩
      · intro l2 hl2
        cases hl2

theorem foldl_processLine_inv (pre : String) (seen0 : List String)
    (hres : reservedSafePre pre) :
    ∀ (ts : TsCode) (st : FilterSt), (∀ l ∈ ts, wfLine pre l) →
      filterInv seen0 st → filterInv seen0 (ts.foldl (processLine pre) st) := by
  intro ts
  induction ts with
  | nil => intro st _ h; exact h
  | cons l rest ih =>
      intro st hwf h
      rw [List.foldl_cons]
      exact ih _ (fun x hx => hwf x (List.mem_cons_of_mem _ hx))
        (processLine_inv pre seen0 hres st l (hwf l (List.mem_cons_self _ _)) h)

theorem filterAndPrefix_inv (ts : TsCode) (seen0 : List String) (pre : String)
    (hres : reservedSafePre pre) (hnd : seen0.Nodup) (hwf : ∀ l ∈ ts, wfLine pre l) :
    (filterAndPrefixDeclarations ts seen0 pre).seen.Nodup ∧
    (∃ new, (filterAndPrefixDeclarations ts seen0 pre).seen = seen0 ++ new) ∧
    (∀ l ∈ (filterAndPrefixDeclarations ts seen0 pre).code, ∀ n,
        declHead? l = some n →
          n ∈ (filterAndPrefixDeclarations ts seen0 pre).seen ∧ n ∉ seen0) ∧
    (∀ n, headCount (filterAndPrefixDeclarations ts seen0 pre).code n ≤ 1) := by
  have h0 : filterInv seen0 ⟨[], [], none, seen0⟩ := by
    refine ⟨hnd, ⟨[], by simp⟩, ?_, ?_, ?_⟩
    · intro l hl; cases hl
    · intro n; rw [headCount_nil]; omega
    · intro l hl; cases hl
  have h1 := foldl_processLine_inv pre seen0 hres ts _ hwf h0
  have h2 := commitBuffer_inv seen0 _ h1
  obtain ⟨hnd2, hext2, hheads2, hcount2, _⟩ := h2
  exact ⟨hnd2, hext2, hheads2, hcount2⟩

/-! ## Helper lemmas: rewriting of already-registered names -/

theorem processLine_head_pre_eq (pre : String) (st : FilterSt) (l : TLine)
    (n : String) (h : declHead? l = some n) (hn : strHasPre pre n = true) :
    processLine pre st l =
      { commitBuffer st with
          buffer := (commitBuffer st).buffer ++
            [applySeen (commitBuffer st).seen pre l],
          currentName := some n } := by
  unfold processLine
  rw [h]
  dsimp
  rw [hn]
  rw [if_pos rfl]

theorem commitBuffer_seen_mem (st : FilterSt) (x : String) (h : x ∈ st.seen) :
    x ∈ (commitBuffer st).seen := by
  unfold commitBuffer
  cases st.currentName with
  | none => exact h
  | some m =>
      dsimp
      by_cases hm : m ∈ st.seen
      · rw [if_pos hm]; exact h
      · rw [if_neg hm]; exact List.mem_append_left _ h

theorem commitBuffer_lines_subset (st : FilterSt) :
    ∀ l, l ∈ (commitBuffer st).result ++ (commitBuffer st).buffer →
      l ∈ st.result ++ st.buffer := by
  intro l
  unfold commitBuffer
  cases st.currentName with
  | none =>
      dsimp
      rw [List.append_nil]
      exact fun h => h
  | some m =>
      dsimp
      by_cases hm : m ∈ st.seen
      · rw [if_pos hm]
        dsimp
        rw [List.append_nil]
        exact fun h => List.mem_append_left _ h
      · rw [if_neg hm]
        dsimp
        rw [List.append_nil]
        exact fun h => h

theorem applySeen_no_orig (seen : List String) (pre n : String)
    (hn : strHasPre pre n = false) (hne : pre ≠ "") (hmem : (pre ++ n) ∈ seen)
    (l : TLine) : ∀ t ∈ applySeen seen pre l, t ≠ n := by
  rw [applySeen_eq_map]
  intro t ht
  obtain ⟨t0, _, rfl⟩ := List.mem_map.mp ht
  exact applySeenTok_ne_orig seen pre n hn hne hmem t0

theorem foldl_no_orig (pre n : String) (hres : reservedSafePre pre)
    (hn : strHasPre pre n = false) :
    ∀ (ts : TsCode) (st : FilterSt), (∀ l ∈ ts, wfLine pre l) →
      (pre ++ n) ∈ st.seen →
      (∀ l ∈ st.result ++ st.buffer, declHead? l = none → ∀ t ∈ l, t ≠ n) →
      (pre ++ n) ∈ (ts.foldl (processLine pre) st).seen ∧
        ∀ l ∈ (ts.foldl (processLine pre) st).result ++
            (ts.foldl (processLine pre) st).buffer,
          declHead? l = none → ∀ t ∈ l, t ≠ n := by
  intro ts
  induction ts with
  | nil => intro st _ h1 h2; exact ⟨h1, h2⟩
  | cons l rest ih =>
      intro st hwf h1 h2
      rw [List.foldl_cons]
      apply ih _ (fun x hx => hwf x (List.mem_cons_of_mem _ hx))
      · cases hdl : declHead? l with
        | none =>
            rw [processLine_none_eq pre st l hdl]
            exact h1
        | some m =>
            have hw := hwf l (List.mem_cons_self _ _)
            unfold wfLine at hw
            rw [hdl] at hw
            rw [processLine_head_plain_eq pre st l m hdl hw.1]
            exact commitBuffer_seen_mem st _ h1
      · cases hdl : declHead? l with
        | none =>
            rw [processLine_none_eq pre st l hdl]
            dsimp
            intro l2 hl2 hl2none
            rcases List.mem_append.mp hl2 with hl2 | hl2
            · exact h2 l2 (List.mem_append_left _ hl2) hl2none
            · rcases List.mem_append.mp hl2 with hl2 | hl2
              · exact h2 l2 (List.mem_append_right _ hl2) hl2none
              · rw [List.mem_singleton.mp hl2]
                exact applySeen_no_orig st.seen pre n hn hres.1 h1 l
        | some m =>
            have hw := hwf l (List.mem_cons_self _ _)
            unfold wfLine at hw
            rw [hdl] at hw
            obtain ⟨hmf, hmres⟩ := hw
            rw [processLine_head_plain_eq pre st l m hdl hmf]
            dsimp
            intro l2 hl2 hl2none
            rcases List.mem_append.mp hl2 with hl2 | hl2
            · exact h2 l2 (commitBuffer_lines_subset st l2
                (List.mem_append_left _ hl2)) hl2none
            · rcases List.mem_append.mp hl2 with hl2 | hl2
              · exact h2 l2 (commitBuffer_lines_subset st l2
                  (List.mem_append_right _ hl2)) hl2none
              · exfalso
                rw [List.mem_singleton.mp hl2] at hl2none
                obtain ⟨kind, rest2, hleq, hk⟩ := (declHead?_eq_some_iff l m).mp hdl
                have hm1 : m ≠ "export" := by
                  intro hc; subst hc; simp at hmres
                have hkn : m ≠ kind := by
                  rcases hk with hk | hk | hk <;> rw [hk] <;>
                    (intro hc; subst hc; simp at hmres)
                rw [hleq, replaceFirstTok_head kind m (pre ++ m) rest2 hm1 hkn]
                  at hl2none
                rw [(declHead?_eq_some_iff _ _).mpr ⟨kind, rest2, rfl, hk⟩] at hl2none
                cases hl2none

theorem filter_rewrites_registered (ts : TsCode) (seen0 : List String)
    (pre n : String) (hres : reservedSafePre pre)
    (hwf : ∀ l ∈ ts, wfLine pre l) (hn : strHasPre pre n = false)
    (hmem : (pre ++ n) ∈ seen0) :
    ∀ l ∈ (filterAndPrefixDeclarations ts seen0 pre).code,
      declHead? l = none → ∀ t ∈ l, t ≠ n := by
  have h0 := foldl_no_orig pre n hres hn ts ⟨[], [], none, seen0⟩ hwf hmem
    (by intro l hl; cases hl)
  intro l hl
  exact h0.2 l (commitBuffer_lines_subset _ l (List.mem_append_left _ hl))

/-! ## Helper lemmas: registry operations and warning lines -/

theorem setAdd_nodup (s : List String) (n : String) (h : s.Nodup) :
    (setAdd s n).Nodup := by
  unfold setAdd
  by_cases hm : n ∈ s
  · rw [if_pos hm]; exact h
  · rw [if_neg hm]
    rw [List.nodup_append]
    exact ⟨h, List.nodup_singleton n,
      fun x hx hx1 => hm ((List.mem_singleton.mp hx1) ▸ hx)⟩

theorem setAdd_extends (s : List String) (n : String) :
    ∃ new, setAdd s n = s ++ new := by
  unfold setAdd
  by_cases hm : n ∈ s
  · rw [if_pos hm]; exact ⟨[], by simp⟩
  · rw [if_neg hm]; exact ⟨[n], rfl⟩

theorem mem_setAdd (s : List String) (n x : String) (h : x ∈ s) : x ∈ setAdd s n := by
  unfold setAdd
  by_cases hm : n ∈ s
  · rw [if_pos hm]; exact h
  · rw [if_neg hm]; exact List.mem_append_left _ h

theorem mem_setAdd_self (s : List String) (n : String) : n ∈ setAdd s n := by
  unfold setAdd
  by_cases hm : n ∈ s
  · rw [if_pos hm]; exact hm
  · rw [if_neg hm]; exact List.mem_append_right _ (List.mem_singleton_self n)

theorem warnFail_no_heads (tn : String) :
    ∀ l ∈ warnFailLines tn, declHead? l = none := by
  intro l hl
  unfold warnFailLines at hl
  rcases List.mem_cons.mp hl with rfl | hl
  · dsimp [declHead?]
  · rcases List.mem_cons.mp hl with rfl | hl
    · dsimp [declHead?]
    · cases hl

theorem respWarnFail_no_heads (tn sc : String) :
    ∀ l ∈ respWarnFailLines tn sc, declHead? l = none := by
  intro l hl
  unfold respWarnFailLines at hl
  rcases List.mem_cons.mp hl with rfl | hl
  · dsimp [declHead?]
  · rcases List.mem_cons.mp hl with rfl | hl
    · dsimp [declHead?]
    · cases hl

theorem headCount_pos_iff (code : TsCode) (n : String) :
    0 < headCount code n ↔ ∃ l ∈ code, declHead? l = some n := by
  simp [headCount, List.countP_pos_iff]

/-! ## Helper lemmas: the shared compile block and the three sections -/

theorem compileFragment_skip (compileO : Compiler) (sch : JSchema)
    (tn pre : String) (gen : List String) (warn : TsCode) (h : tn ∈ gen) :
    compileFragment compileO sch tn pre gen warn = ⟨[], gen, some tn, false⟩ := by
  unfold compileFragment
  rw [if_pos h]

theorem compileFragment_fail (compileO : Compiler) (sch : JSchema)
    (tn pre : String) (gen : List String) (warn : TsCode) (h1 : tn ∉ gen)
    (h2 : compileO sch tn = none) :
    compileFragment compileO sch tn pre gen warn = ⟨warn, gen, none, true⟩ := by
  unfold compileFragment
  rw [if_neg h1, h2]

theorem compileFragment_inv (compileO : Compiler) (sch : JSchema)
    (tn pre : String) (gen : List String) (warn : TsCode)
    (hres : reservedSafePre pre) (hnd : gen.Nodup) (hwc : wfCompiler pre compileO)
    (hwarn : ∀ l ∈ warn, declHead? l = none) :
    (compileFragment compileO sch tn pre gen warn).gen.Nodup ∧
    (∃ new, (compileFragment compileO sch tn pre gen warn).gen = gen ++ new) ∧
    (∀ l ∈ (compileFragment compileO sch tn pre gen warn).typesString, ∀ n,
        declHead? l = some n →
          n ∈ (compileFragment compileO sch tn pre gen warn).gen ∧ n ∉ gen) ∧
    (∀ n, headCount (compileFragment compileO sch tn pre gen warn).typesString n ≤ 1) := by
  unfold compileFragment
  by_cases hm : tn ∈ gen
  · rw [if_pos hm]
    refine ⟨hnd, ⟨[], by simp⟩, ?_, ?_⟩
    · intro l hl; cases hl
    · intro n; rw [headCount_nil]; omega
  · rw [if_neg hm]
    cases hco : compileO sch tn with
    | none =>
        dsimp
        refine ⟨hnd, ⟨[], by simp⟩, ?_, ?_⟩
        · intro l hl n hn
          exact absurd hn (head_none_ne_some l n (hwarn l hl))
        · intro n
          rw [(headCount_eq_zero_iff _ _).mpr
            (fun l hl => head_none_ne_some l n (hwarn l hl))]
          omega
    | some ts =>
        dsimp
        obtain ⟨fnd, ⟨new1, h1⟩, fheads, fcount⟩ :=
          filterAndPrefix_inv ts gen pre hres hnd (hwc sch tn ts hco)
        refine ⟨setAdd_nodup _ _ fnd, ?_, ?_, fcount⟩
        · obtain ⟨new2, h2⟩ := setAdd_extends (filterAndPrefixDeclarations ts gen pre).seen tn
          exact ⟨new1 ++ new2, by rw [h2, h1, List.append_assoc]⟩
        · intro l hl n hn
          obtain ⟨ha, hb⟩ := fheads l hl n hn
          exact ⟨mem_setAdd _ _ _ ha, hb⟩

theorem requestBodyStep_inv (compileO : Compiler) (requestBody : Option RequestBodyObj)
    (opPre base pre : String) (gen : List String) (hres : reservedSafePre pre)
    (hnd : gen.Nodup) (hwc : wfCompiler pre compileO) :
    (requestBodyStep compileO requestBody opPre base pre gen).gen.Nodup ∧
    (∃ new, (requestBodyStep compileO requestBody opPre base pre gen).gen = gen ++ new) ∧
    (∀ l ∈ (requestBodyStep compileO requestBody opPre base pre gen).typesString, ∀ n,
        declHead? l = some n →
          n ∈ (requestBodyStep compileO requestBody opPre base pre gen).gen ∧ n ∉ gen) ∧
    (∀ n, headCount (requestBodyStep compileO requestBody opPre base pre gen).typesString n ≤ 1) := by
  unfold requestBodyStep
  have htriv : gen.Nodup ∧ (∃ new, gen = gen ++ new) ∧
      (∀ l ∈ ([] : TsCode), ∀ n, declHead? l = some n → n ∈ gen ∧ n ∉ gen) ∧
      (∀ n, headCount ([] : TsCode) n ≤ 1) := by
    refine ⟨hnd, ⟨[], by simp⟩, ?_, ?_⟩
    · intro l hl; cases hl
    · intro n; rw [headCount_nil]; omega
  cases requestBody with
  | none => exact htriv
  | some rb =>
      dsimp
      by_cases hc : rb.hasContent = true
      · rw [if_pos hc]
        cases rb.jsonSchema with
        | none => exact htriv
        | some sch =>
            exact compileFragment_inv compileO sch _ pre gen _ hres hnd hwc
              (warnFail_no_heads _)
      · rw [if_neg hc]
        exact htriv

theorem parametersStep_inv (compileO : Compiler) (parameters : List ParameterObject)
    (opPre base pre : String) (gen : List String) (hres : reservedSafePre pre)
    (hnd : gen.Nodup) (hwc : wfCompiler pre compileO) :
    (parametersStep compileO parameters opPre base pre gen).gen.Nodup ∧
    (∃ new, (parametersStep compileO parameters opPre base pre gen).gen = gen ++ new) ∧
    (∀ l ∈ (parametersStep compileO parameters opPre base pre gen).typesString, ∀ n,
        declHead? l = some n →
          n ∈ (parametersStep compileO parameters opPre base pre gen).gen ∧ n ∉ gen) ∧
    (∀ n, headCount (parametersStep compileO parameters opPre base pre gen).typesString n ≤ 1) := by
  unfold parametersStep
  have htriv : gen.Nodup ∧ (∃ new, gen = gen ++ new) ∧
      (∀ l ∈ ([] : TsCode), ∀ n, declHead? l = some n → n ∈ gen ∧ n ∉ gen) ∧
      (∀ n, headCount ([] : TsCode) n ≤ 1) := by
    refine ⟨hnd, ⟨[], by simp⟩, ?_, ?_⟩
    · intro l hl; cases hl
    · intro n; rw [headCount_nil]; omega
  dsimp
  by_cases h1 : 0 < (parameters.filter (fun p => p.location = "query")).length
  · rw [if_pos h1]
    by_cases h2 : 0 <
        (buildParamsSchema (parameters.filter (fun p => p.location = "query"))).1.length
    · rw [if_pos h2]
      exact compileFragment_inv compileO _ _ pre gen _ hres hnd hwc (warnFail_no_heads _)
    · rw [if_neg h2]
      exact htriv
  · rw [if_neg h1]
    exact htriv

theorem mem_of_extends {x : String} {a b : List String}
    (hext : ∃ new, b = a ++ new) (h : x ∈ a) : x ∈ b := by
  obtain ⟨new, rfl⟩ := hext
  exact List.mem_append_left _ h

theorem headCount_le_one_concat (a b : TsCode) (gA : List String) (n : String)
    (hA : ∀ l ∈ a, ∀ m, declHead? l = some m → m ∈ gA)
    (hB : ∀ l ∈ b, ∀ m, declHead? l = some m → m ∉ gA)
    (cA : headCount a n ≤ 1) (cB : headCount b n ≤ 1) :
    headCount (a ++ b) n ≤ 1 := by
  rw [headCount_append]
  by_cases hpa : 0 < headCount a n
  · obtain ⟨l, hl, hln⟩ := (headCount_pos_iff a n).mp hpa
    have hna : n ∈ gA := hA l hl n hln
    have hbz : headCount b n = 0 := by
      by_contra hc
      obtain ⟨l2, hl2, hln2⟩ :=
        (headCount_pos_iff b n).mp (Nat.pos_of_ne_zero hc)
      exact hB l2 hl2 n hln2 hna
    omega
  · omega

theorem responseStep_inv (compileO : Compiler) (opPre base pre method : String)
    (genStart : List String) (hres : reservedSafePre pre)
    (hwc : wfCompiler pre compileO) (st : RespState)
    (entry : String × ResponseObject) (h : respInv genStart st) :
    respInv genStart (responseStep compileO opPre base pre method st entry) := by
  obtain ⟨hnd, hext, hheads, hcount⟩ := h
  unfold responseStep
  dsimp
  by_cases h2 : strHasPre "2" entry.1 = true
  · rw [if_pos h2]
    cases entry.2.content with
    | none =>
        dsimp
        by_cases hip : entry.1 = primarySuccessCode method
        · rw [if_pos hip]
          exact ⟨hnd, hext, hheads, hcount⟩
        · rw [if_neg hip]
          exact ⟨hnd, hext, hheads, hcount⟩
    | some c =>
        dsimp
        cases c.jsonSchema with
        | none =>
            dsimp
            by_cases hip : entry.1 = primarySuccessCode method
            · rw [if_pos hip]
              exact ⟨hnd, hext, hheads, hcount⟩
            · rw [if_neg hip]
              exact ⟨hnd, hext, hheads, hcount⟩
        | some sch =>
            dsimp
            by_cases hip : entry.1 = primarySuccessCode method
            · rw [if_pos hip, if_pos hip]
              dsimp
              obtain ⟨fnd, fext, fheads, fcount⟩ :=
                compileFragment_inv compileO sch
                  (opPre ++ base ++ "_Response" ++ "") pre st.gen
                  (respWarnFailLines (opPre ++ base ++ "_Response" ++ "") entry.1)
                  hres hnd hwc (respWarnFail_no_heads _ _)
              refine ⟨fnd, ?_, ?_, ?_⟩
              · obtain ⟨n0, h0⟩ := hext
                obtain ⟨n1, h1⟩ := fext
                exact ⟨n0 ++ n1, by rw [h1, h0, List.append_assoc]⟩
              · intro l hl n hn
                rcases List.mem_append.mp hl with hl | hl
                · obtain ⟨ha, hb⟩ := hheads l hl n hn
                  exact ⟨mem_of_extends fext ha, hb⟩
                · obtain ⟨ha, hb⟩ := fheads l hl n hn
                  refine ⟨ha, fun hg => hb (mem_of_extends hext hg)⟩
              · intro n
                exact headCount_le_one_concat _ _ st.gen n
                  (fun l hl m hm => (hheads l hl m hm).1)
                  (fun l hl m hm => (fheads l hl m hm).2)
                  (hcount n) (fcount n)
            · rw [if_neg hip, if_neg hip]
              obtain ⟨fnd, fext, fheads, fcount⟩ :=
                compileFragment_inv compileO sch
                  (opPre ++ base ++ "_Response" ++ ("_" ++ entry.1)) pre st.gen
                  (respWarnFailLines (opPre ++ base ++ "_Response" ++ ("_" ++ entry.1))
                    entry.1)
                  hres hnd hwc (respWarnFail_no_heads _ _)
              refine ⟨fnd, ?_, ?_, ?_⟩
              · obtain ⟨n0, h0⟩ := hext
                obtain ⟨n1, h1⟩ := fext
                exact ⟨n0 ++ n1, by rw [h1, h0, List.append_assoc]⟩
              · intro l hl n hn
                rcases List.mem_append.mp hl with hl | hl
                · obtain ⟨ha, hb⟩ := hheads l hl n hn
                  exact ⟨mem_of_extends fext ha, hb⟩
                · obtain ⟨ha, hb⟩ := fheads l hl n hn
                  refine ⟨ha, fun hg => hb (mem_of_extends hext hg)⟩
              · intro n
                exact headCount_le_one_concat _ _ st.gen n
                  (fun l hl m hm => (hheads l hl m hm).1)
                  (fun l hl m hm => (fheads l hl m hm).2)
                  (hcount n) (fcount n)
  · rw [if_neg h2]
    exact ⟨hnd, hext, hheads, hcount⟩

theorem respFold_inv (compileO : Compiler) (opPre base pre method : String)
    (genStart : List String) (hres : reservedSafePre pre)
    (hwc : wfCompiler pre compileO) :
    ∀ (entries : List (String × ResponseObject)) (st : RespState),
      respInv genStart st →
      respInv genStart
        (entries.foldl (responseStep compileO opPre base pre method) st) := by
  intro entries
  induction entries with
  | nil => intro st h; exact h
  | cons e rest ih =>
      intro st h
      rw [List.foldl_cons]
      exact ih _ (responseStep_inv compileO opPre base pre method genStart hres hwc st e h)

theorem genOpTypes_inv (compileO : Compiler) (opInfo : OperationInfo)
    (base : String) (gen0 : List String) (cfg : GenCfg)
    (hres : reservedSafePre (schemaPreOf cfg)) (hnd : gen0.Nodup)
    (hwc : wfCompiler (schemaPreOf cfg) compileO) :
    (_generateOperationTypes compileO opInfo base gen0 cfg).2.Nodup ∧
    (∃ new, (_generateOperationTypes compileO opInfo base gen0 cfg).2 = gen0 ++ new) ∧
    (∀ l ∈ (_generateOperationTypes compileO opInfo base gen0 cfg).1.typesString, ∀ n,
        declHead? l = some n →
          n ∈ (_generateOperationTypes compileO opInfo base gen0 cfg).2 ∧ n ∉ gen0) ∧
    (∀ n, headCount (_generateOperationTypes compileO opInfo base gen0 cfg).1.typesString n ≤ 1) := by
  unfold _generateOperationTypes
  dsimp
  obtain ⟨rnd, rext, rheads, rcount⟩ :=
    requestBodyStep_inv compileO opInfo.operation.requestBody (opPreOf cfg) base
      (schemaPreOf cfg) gen0 hres hnd hwc
  set rb := requestBodyStep compileO opInfo.operation.requestBody (opPreOf cfg) base
    (schemaPreOf cfg) gen0 with hrb
  have hresp0 : respInv rb.gen ⟨[], rb.gen, none, false, false⟩ := by
    refine ⟨rnd, ⟨[], by simp⟩, ?_, ?_⟩
    · intro l hl; cases hl
    · intro n; rw [headCount_nil]; omega
  obtain ⟨snd, sext, sheads, scount⟩ :=
    respFold_inv compileO (opPreOf cfg) base (schemaPreOf cfg) opInfo.method rb.gen
      hres hwc opInfo.operation.responses _ hresp0
  set rs := opInfo.operation.responses.foldl
    (responseStep compileO (opPreOf cfg) base (schemaPreOf cfg) opInfo.method)
    ⟨[], rb.gen, none, false, false⟩ with hrs
  obtain ⟨pnd, pext, pheads, pcount⟩ :=
    parametersStep_inv compileO opInfo.operation.parameters (opPreOf cfg) base
      (schemaPreOf cfg) rs.gen hres snd hwc
  set ps := parametersStep compileO opInfo.operation.parameters (opPreOf cfg) base
    (schemaPreOf cfg) rs.gen with hps
  have hext02 : ∃ new, rs.gen = gen0 ++ new := by
    obtain ⟨n0, h0⟩ := rext
    obtain ⟨n1, h1⟩ := sext
    exact ⟨n0 ++ n1, by rw [h1, h0, List.append_assoc]⟩
  have hext03 : ∃ new, ps.gen = gen0 ++ new := by
    obtain ⟨n2, h2⟩ := pext
    obtain ⟨n01, h01⟩ := hext02
    exact ⟨n01 ++ n2, by rw [h2, h01, List.append_assoc]⟩
  refine ⟨pnd, hext03, ?_, ?_⟩
  · intro l hl n hn
    rcases List.mem_append.mp hl with hl | hl
    · rcases List.mem_append.mp hl with hl | hl
      · obtain ⟨ha, hb⟩ := rheads l hl n hn
        exact ⟨mem_of_extends pext (mem_of_extends sext ha), hb⟩
      · obtain ⟨ha, hb⟩ := sheads l hl n hn
        refine ⟨mem_of_extends pext ha, fun hg => hb (mem_of_extends rext hg)⟩
    · obtain ⟨ha, hb⟩ := pheads l hl n hn
      refine ⟨ha, fun hg => hb (mem_of_extends hext02 hg)⟩
  · intro n
    apply headCount_le_one_concat _ _ rs.gen n
    · intro l hl m hm
      rcases List.mem_append.mp hl with hl | hl
      · exact mem_of_extends sext (rheads l hl m hm).1
      · exact (sheads l hl m hm).1
    · intro l hl m hm
      exact (pheads l hl m hm).2
    · apply headCount_le_one_concat _ _ rb.gen n
      · intro l hl m hm
        exact (rheads l hl m hm).1
      · intro l hl m hm
        exact (sheads l hl m hm).2
      · exact rcount n
      · exact scount n
    · exact pcount n

theorem runOperationTypes_inv (compileO : Compiler) (cfg : GenCfg)
    (hres : reservedSafePre (schemaPreOf cfg))
    (hwc : wfCompiler (schemaPreOf cfg) compileO) :
    ∀ (ops : List (OperationInfo × String)) (acc : TsCode × List String)
      (gen0 : List String),
      acc.2.Nodup → (∃ new, acc.2 = gen0 ++ new) →
      (∀ l ∈ acc.1, ∀ n, declHead? l = some n → n ∈ acc.2 ∧ n ∉ gen0) →
      (∀ n, headCount acc.1 n ≤ 1) →
      ((ops.foldl
          (fun acc op =>
            let r := _generateOperationTypes compileO op.1 op.2 acc.2 cfg
            (acc.1 ++ r.1.typesString, r.2)) acc).2.Nodup ∧
       (∃ new, (ops.foldl
          (fun acc op =>
            let r := _generateOperationTypes compileO op.1 op.2 acc.2 cfg
            (acc.1 ++ r.1.typesString, r.2)) acc).2 = gen0 ++ new) ∧
       (∀ l ∈ (ops.foldl
          (fun acc op =>
            let r := _generateOperationTypes compileO op.1 op.2 acc.2 cfg
            (acc.1 ++ r.1.typesString, r.2)) acc).1, ∀ n,
          declHead? l = some n →
            n ∈ (ops.foldl
              (fun acc op =>
                let r := _generateOperationTypes compileO op.1 op.2 acc.2 cfg
                (acc.1 ++ r.1.typesString, r.2)) acc).2 ∧ n ∉ gen0) ∧
       (∀ n, headCount (ops.foldl
          (fun acc op =>
            let r := _generateOperationTypes compileO op.1 op.2 acc.2 cfg
            (acc.1 ++ r.1.typesString, r.2)) acc).1 n ≤ 1)) := by
  intro ops
  induction ops with
  | nil =>
      intro acc gen0 h1 h2 h3 h4
      exact ⟨h1, h2, h3, h4⟩
  | cons op rest ih =>
      intro acc gen0 h1 h2 h3 h4
      rw [List.foldl_cons]
      obtain ⟨gnd, gext, gheads, gcount⟩ :=
        genOpTypes_inv compileO op.1 op.2 acc.2 cfg hres h1 hwc
      apply ih
      · exact gnd
      · obtain ⟨n0, h0⟩ := h2
        obtain ⟨n1, hh1⟩ := gext
        exact ⟨n0 ++ n1, by dsimp at hh1 ⊢; rw [hh1, h0, List.append_assoc]⟩
      · intro l hl n hn
        dsimp at hl
        rcases List.mem_append.mp hl with hl | hl
        · obtain ⟨ha, hb⟩ := h3 l hl n hn
          exact ⟨mem_of_extends gext ha, hb⟩
        · obtain ⟨ha, hb⟩ := gheads l hl n hn
          refine ⟨ha, fun hg => hb (mem_of_extends h2 hg)⟩
      · intro n
        dsimp
        apply headCount_le_one_concat _ _ acc.2 n
        · intro l hl m hm
          exact (h3 l hl m hm).1
        · intro l hl m hm
          exact (gheads l hl m hm).2
        · exact h4 n
        · exact gcount n

theorem primarySuccessCode_starts2 (method : String) :
    strHasPre "2" (primarySuccessCode method) = true := by
  unfold primarySuccessCode
  by_cases hm : method = "post"
  · rw [if_pos hm]; decide
  · rw [if_neg hm]; decide

theorem responseStep_skip_primary (compileO : Compiler)
    (opPre base pre method : String) (st : RespState) (sch : JSchema)
    (h : (opPre ++ base ++ "_Response") ∈ st.gen) :
    responseStep compileO opPre base pre method st
        (primarySuccessCode method, ⟨some ⟨some sch⟩⟩) =
      { st with primaryResponseTypeName := some (opPre ++ base ++ "_Response"),
                primaryResponseTypeGenerated := true } := by
  have happ : opPre ++ base ++ "_Response" ++ "" = opPre ++ base ++ "_Response" := by
    simp
  unfold responseStep
  dsimp
  rw [if_pos (primarySuccessCode_starts2 method)]
  simp only [eq_self_iff_true, if_true, happ]
  rw [compileFragment_skip compileO sch _ pre st.gen _ h]
  simp

/-! ## Claim C1 -/

/-- C1: across a generation run, the shared `generatedTypeNames` registry
admits every declaration name at most once: the registry stays
duplicate-free, no declaration name heads more than one emitted declaration
in the run's concatenated types text, and names already registered on entry
are never re-emitted.  When a compile step targets a registered name the
compile block is skipped, the existing declaration is reused (the name is
reported, no failure), and — for a primary response — the reuse is still
recorded as a successful primary-response type. -/
theorem C1_name_registry_at_most_once (compileO : Compiler) (cfg : GenCfg)
    (ops : List (OperationInfo × String)) (gen0 : List String)
    (hres : reservedSafePre (schemaPreOf cfg)) (hnd : gen0.Nodup)
    (hwc : wfCompiler (schemaPreOf cfg) compileO) :
    (runOperationTypes compileO cfg ops gen0).2.Nodup ∧
    (∀ n, headCount (runOperationTypes compileO cfg ops gen0).1 n ≤ 1) ∧
    (∀ n ∈ gen0, headCount (runOperationTypes compileO cfg ops gen0).1 n = 0) ∧
    (∀ sch tn pre gen warn, tn ∈ gen →
        compileFragment compileO sch tn pre gen warn = ⟨[], gen, some tn, false⟩) ∧
    (∀ (st : RespState) (sch : JSchema) (opPre base pre method : String),
        (opPre ++ base ++ "_Response") ∈ st.gen →
        responseStep compileO opPre base pre method st
            (primarySuccessCode method, ⟨some ⟨some sch⟩⟩) =
          { st with primaryResponseTypeName := some (opPre ++ base ++ "_Response"),
                    primaryResponseTypeGenerated := true }) := by
  have hrun := runOperationTypes_inv compileO cfg hres hwc ops ([], gen0) gen0 hnd
    ⟨[], by simp⟩ (by intro l hl; cases hl) (by intro n; rw [headCount_nil]; omega)
  unfold runOperationTypes
  obtain ⟨h1, _, h3, h4⟩ := hrun
  refine ⟨h1, h4, ?_, ?_, ?_⟩
  · intro n hn
    rw [headCount_eq_zero_iff]
    intro l hl hc
    exact (h3 l hl n hc).2 hn
  · intro sch tn pre gen warn hmem
    exact compileFragment_skip compileO sch tn pre gen warn hmem
  · intro st sch opPre base pre method hmem
    exact responseStep_skip_primary compileO opPre base pre method st sch hmem

/-- Witness for C1 at a concrete run: two operations, an oracle that emits a
shared auxiliary declaration for every fragment; the registry ends
duplicate-free. -/
theorem C1_name_registry_at_most_once_witness :
    (runOperationTypes
        (fun _ _ => some [["export", "interface", "Pet", "\x7b"], ["a:", "Aux"], ["\x7d"],
                          ["export", "interface", "Aux", "\x7b"], ["\x7d"]])
        ⟨none, none⟩
        [(⟨"/pets", "post",
            ⟨some ⟨true, some (JSchema.leaf "rb")⟩,
             [("201", ⟨some ⟨some (JSchema.leaf "r")⟩⟩)], []⟩⟩, "CreatePet"),
         (⟨"/pets", "get",
            ⟨none, [("200", ⟨some ⟨some (JSchema.leaf "r")⟩⟩)],
             [⟨"limit", "query", true, none⟩]⟩⟩, "GetPets")]
        []).2.Nodup := by
  have h := C1_name_registry_at_most_once
    (fun _ _ => some [["export", "interface", "Pet", "\x7b"], ["a:", "Aux"], ["\x7d"],
                      ["export", "interface", "Aux", "\x7b"], ["\x7d"]])
    ⟨none, none⟩
    [(⟨"/pets", "post",
        ⟨some ⟨true, some (JSchema.leaf "rb")⟩,
         [("201", ⟨some ⟨some (JSchema.leaf "r")⟩⟩)], []⟩⟩, "CreatePet"),
     (⟨"/pets", "get",
        ⟨none, [("200", ⟨some ⟨some (JSchema.leaf "r")⟩⟩)],
         [⟨"limit", "query", true, none⟩]⟩⟩, "GetPets")]
    []
    (by decide)
    (by decide)
    (by
      intro s n ts hts
      have hts2 : [["export", "interface", "Pet", "\x7b"], ["a:", "Aux"], ["\x7d"],
                   ["export", "interface", "Aux", "\x7b"], ["\x7d"]] = ts :=
        Option.some_inj.mp hts
      rw [← hts2]
      decide)
  exact h.1

/-! ## Helper lemmas: section equations for failure and primary handling -/

theorem requestBodyStep_fail_eq (compileO : Compiler) (rb : RequestBodyObj)
    (opPre base pre : String) (gen : List String) (sch : JSchema)
    (h1 : rb.hasContent = true) (h2 : rb.jsonSchema = some sch)
    (h3 : (opPre ++ base ++ "_Request") ∉ gen)
    (h4 : compileO sch (opPre ++ base ++ "_Request") = none) :
    requestBodyStep compileO (some rb) opPre base pre gen =
      ⟨warnFailLines (opPre ++ base ++ "_Request"), gen, none, true⟩ := by
  unfold requestBodyStep
  dsimp
  rw [if_pos h1, h2]
  exact compileFragment_fail compileO sch _ pre gen _ h3 h4

theorem responseStep_fail_primary_eq (compileO : Compiler)
    (opPre base pre method : String) (st : RespState) (sch : JSchema)
    (h3 : (opPre ++ base ++ "_Response") ∉ st.gen)
    (h4 : compileO sch (opPre ++ base ++ "_Response") = none) :
    responseStep compileO opPre base pre method st
        (primarySuccessCode method, ⟨some ⟨some sch⟩⟩) =
      { st with
          typesString := st.typesString ++
            respWarnFailLines (opPre ++ base ++ "_Response") (primarySuccessCode method),
          primaryResponseTypeName := some (opPre ++ base ++ "_Response"),
          responseTypeFailed := true } := by
  have happ : opPre ++ base ++ "_Response" ++ "" = opPre ++ base ++ "_Response" := by
    simp
  unfold responseStep
  dsimp
  rw [if_pos (primarySuccessCode_starts2 method)]
  simp only [eq_self_iff_true, if_true, happ]
  rw [compileFragment_fail compileO sch _ pre st.gen _ h3 h4]
  simp

theorem buildParamsSchema_props_len (qps : List ParameterObject) :
    ∀ acc : List (String × JSchema) × List String,
      acc.1.length ≤ (qps.foldl
        (fun acc p =>
          (jsObjInsert acc.1 p.name (p.schema.getD JSchema.stringSchema),
           if p.required then acc.2 ++ [p.name] else acc.2)) acc).1.length := by
  induction qps with
  | nil => intro acc; rw [List.foldl_nil]
  | cons q rest ih =>
      intro acc
      rw [List.foldl_cons]
      refine le_trans ?_ (ih _)
      dsimp
      unfold jsObjInsert
      by_cases hm : acc.1.any (fun kv => kv.1 = q.name)
      · rw [if_pos hm, List.length_map]
      · rw [if_neg hm, List.length_append]
        omega

theorem buildParamsSchema_pos (qps : List ParameterObject) (h : qps ≠ []) :
    0 < (buildParamsSchema qps).1.length := by
  unfold buildParamsSchema
  cases qps with
  | nil => exact absurd rfl h
  | cons q rest =>
      rw [List.foldl_cons]
      refine Nat.lt_of_lt_of_le ?_ (buildParamsSchema_props_len rest _)
      dsimp
      unfold jsObjInsert
      rw [if_neg (by simp)]
      simp

theorem parametersStep_fail_eq (compileO : Compiler)
    (parameters : List ParameterObject) (opPre base pre : String)
    (gen : List String)
    (h1 : parameters.filter (fun p => p.location = "query") ≠ [])
    (h3 : (opPre ++ base ++ "_Parameters") ∉ gen)
    (h4 : compileO
        (JSchema.objectSchema
          (buildParamsSchema (parameters.filter (fun p => p.location = "query"))).1
          (buildParamsSchema (parameters.filter (fun p => p.location = "query"))).2)
        (opPre ++ base ++ "_Parameters") = none) :
    parametersStep compileO parameters opPre base pre gen =
      ⟨warnFailLines (opPre ++ base ++ "_Parameters"), gen, none, true⟩ := by
  unfold parametersStep
  dsimp
  rw [if_pos (List.length_pos.mpr h1)]
  rw [if_pos (buildParamsSchema_pos _ h1)]
  exact compileFragment_fail compileO _ _ pre gen _ h3 h4

theorem compileFragment_failed_imp (compileO : Compiler) (sch : JSchema)
    (tn pre : String) (gen : List String) (warn : TsCode)
    (h : (compileFragment compileO sch tn pre gen warn).failed = true) :
    compileO sch tn = none := by
  unfold compileFragment at h
  by_cases hm : tn ∈ gen
  · rw [if_pos hm] at h; cases h
  · rw [if_neg hm] at h
    cases hco : compileO sch tn with
    | none => rfl
    | some ts => rw [hco] at h; dsimp at h; cases h

theorem responseStep_primary_name (compileO : Compiler)
    (opPre base pre method : String) (st : RespState) (sch : JSchema) :
    (responseStep compileO opPre base pre method st
        (primarySuccessCode method, ⟨some ⟨some sch⟩⟩)).primaryResponseTypeName =
      some (opPre ++ base ++ "_Response") := by
  have happ : opPre ++ base ++ "_Response" ++ "" = opPre ++ base ++ "_Response" := by
    simp
  unfold responseStep
  dsimp
  rw [if_pos (primarySuccessCode_starts2 method)]
  simp only [eq_self_iff_true, if_true, happ]

theorem responseStep_nonprimary_fields (compileO : Compiler)
    (opPre base pre method : String) (st : RespState)
    (e : String × ResponseObject) (h : e.1 ≠ primarySuccessCode method) :
    (responseStep compileO opPre base pre method st e).primaryResponseTypeName =
        st.primaryResponseTypeName ∧
      (responseStep compileO opPre base pre method st e).primaryResponseTypeGenerated =
        st.primaryResponseTypeGenerated ∧
      ((responseStep compileO opPre base pre method st e).responseTypeFailed = true →
        st.responseTypeFailed = true) := by
  unfold responseStep
  dsimp
  by_cases h2 : strHasPre "2" e.1 = true
  · rw [if_pos h2]
    cases e.2.content with
    | none =>
        dsimp
        rw [if_neg h]
        exact ⟨rfl, rfl, fun hc => hc⟩
    | some c =>
        dsimp
        cases c.jsonSchema with
        | none =>
            dsimp
            rw [if_neg h]
            exact ⟨rfl, rfl, fun hc => hc⟩
        | some sch =>
            rw [if_neg h, if_neg h]
            dsimp
            constructor
            · rfl
            constructor
            · rw [if_neg (fun hc => h hc.1)]
            · rw [if_neg (fun hc => h hc.1)]
              exact fun hc => hc
  · rw [if_neg h2]
    exact ⟨rfl, rfl, fun hc => hc⟩

/-! ## Claim C2 -/

/-- C2 counterexample: on a fragment declaring `A`, then referencing `B`,
then declaring `B`, the declaration of `B` is prefixed to `SSGEN_B`, yet the
reference to `B` that occurs earlier in the text than `B`'s declaration is
left unprefixed — the emitted text retains a whole-word occurrence of the
unprefixed name, contradicting the claim for references occurring earlier
than the declaration. -/
theorem C2_counterexample :
    (["export", "interface", "SSGEN_B"] ∈
        (filterAndPrefixDeclarations
          [["export", "interface", "A"], ["ref", "B"], ["export", "interface", "B"]]
          [] "SSGEN_").code) ∧
    ∃ l ∈ (filterAndPrefixDeclarations
          [["export", "interface", "A"], ["ref", "B"], ["export", "interface", "B"]]
          [] "SSGEN_").code, declHead? l = none ∧ "B" ∈ l := by
  decide

/-- C2 (amended): the whole-word rewriting of an auxiliary declaration's
unprefixed name holds only for references processed after the declaration's
prefixed name has been recorded in the shared registry: if `pre ++ n` is
registered before a fragment is filtered, then no non-declaration-head line
of the filtered output retains a whole-word occurrence of `n`.  References
processed before the name is recorded — in particular references occurring
earlier in the same fragment than the declaration itself — may remain
unprefixed. -/
theorem C2_amended_rewritten_after_registration (ts : TsCode)
    (seen0 : List String) (pre n : String) (hres : reservedSafePre pre)
    (hwf : ∀ l ∈ ts, wfLine pre l) (hn : strHasPre pre n = false)
    (hmem : (pre ++ n) ∈ seen0) :
    ∀ l ∈ (filterAndPrefixDeclarations ts seen0 pre).code,
      declHead? l = none → ∀ t ∈ l, t ≠ n :=
  filter_rewrites_registered ts seen0 pre n hres hwf hn hmem

/-- Witness for the amended C2: with `SSGEN_B` already registered, a later
fragment's reference to `B` is rewritten; the emitted reference line carries
`SSGEN_B`, a token the theorem certifies differs from the original name. -/
theorem C2_amended_rewritten_after_registration_witness :
    (["ref", "SSGEN_B"] : TLine) ∈
      (filterAndPrefixDeclarations
        [["export", "interface", "A"], ["ref", "B"]] ["SSGEN_B"] "SSGEN_").code ∧
    ("SSGEN_B" : String) ≠ "B" :=
  ⟨by decide,
   C2_amended_rewritten_after_registration
    [["export", "interface", "A"], ["ref", "B"]] ["SSGEN_B"] "SSGEN_" "B"
    (by decide) (by decide) (by decide) (by decide)
    ["ref", "SSGEN_B"] (by decide) (by decide) "SSGEN_B" (by decide)⟩

/-! ## Claim C3 -/

/-- C3 counterexample: an operation whose request-body schema fails to
compile.  The failure flag is set and a warning comment is emitted, but the
emitted types text contains no declaration line at all — in particular no
safe fallback type alias standing in for the failed declaration, contrary to
the claim. -/
theorem C3_counterexample :
    ((_generateOperationTypes (fun _ _ => none)
        ⟨"/pets", "post", ⟨some ⟨true, some (JSchema.leaf "rb")⟩, [], []⟩⟩
        "CreatePet" [] ⟨none, none⟩).1.requestBodyFailed = true) ∧
    (∃ l ∈ (_generateOperationTypes (fun _ _ => none)
        ⟨"/pets", "post", ⟨some ⟨true, some (JSchema.leaf "rb")⟩, [], []⟩⟩
        "CreatePet" [] ⟨none, none⟩).1.typesString, l.head? = some "//") ∧
    (∀ l ∈ (_generateOperationTypes (fun _ _ => none)
        ⟨"/pets", "post", ⟨some ⟨true, some (JSchema.leaf "rb")⟩, [], []⟩⟩
        "CreatePet" [] ⟨none, none⟩).1.typesString, declHead? l = none) := by
  decide

/-- C3 (amended): a schema fragment whose compilation fails never aborts the
operation's type generation (the resolver is total and still returns a
result): the corresponding failure flag is set, the operation's types text
receives a warning comment in place of the declaration, the failed name is
cleared — and no fallback type alias is emitted into the types text; the
safe fallback happens downstream, where the accessor factory's generic
default degrades to `any`. -/
theorem C3_amended_failure_flag_warning_no_alias :
    (∀ (compileO : Compiler) (opInfo : OperationInfo) (base : String)
        (gen0 : List String) (cfg : GenCfg) (rb : RequestBodyObj) (sch : JSchema)
        (tagImportName processedPath : String) (authRequire : Bool),
        opInfo.operation.requestBody = some rb → rb.hasContent = true →
        rb.jsonSchema = some sch →
        (opPreOf cfg ++ base ++ "_Request") ∉ gen0 →
        compileO sch (opPreOf cfg ++ base ++ "_Request") = none →
        (_generateOperationTypes compileO opInfo base gen0 cfg).1.requestBodyFailed = true ∧
        (∀ l ∈ warnFailLines (opPreOf cfg ++ base ++ "_Request"),
            l ∈ (_generateOperationTypes compileO opInfo base gen0 cfg).1.typesString) ∧
        (_generateOperationTypes compileO opInfo base gen0 cfg).1.requestBodyTypeName = none ∧
        (_generateFunctionFactory opInfo tagImportName processedPath authRequire
            (_generateOperationTypes compileO opInfo base gen0 cfg).1.requestBodyTypeName
            (_generateOperationTypes compileO opInfo base gen0 cfg).1.parametersTypeName
            (_generateOperationTypes compileO opInfo base gen0 cfg).1.primaryResponseTypeName
            (_generateOperationTypes compileO opInfo base gen0 cfg).1.requestBodyFailed
            (_generateOperationTypes compileO opInfo base gen0 cfg).1.parametersTypeFailed
            (_generateOperationTypes compileO opInfo base gen0 cfg).1.responseTypeFailed
            (_generateOperationTypes compileO opInfo base gen0 cfg).1.primaryResponseTypeGenerated).defaultRequestBodyType = "any") ∧
    (∀ (compileO : Compiler) (opInfo : OperationInfo) (base : String)
        (gen0 : List String) (cfg : GenCfg) (sch : JSchema),
        opInfo.operation.requestBody = none →
        opInfo.operation.responses =
          [(primarySuccessCode opInfo.method, ⟨some ⟨some sch⟩⟩)] →
        (opPreOf cfg ++ base ++ "_Response") ∉ gen0 →
        compileO sch (opPreOf cfg ++ base ++ "_Response") = none →
        (_generateOperationTypes compileO opInfo base gen0 cfg).1.responseTypeFailed = true ∧
        (∀ l ∈ respWarnFailLines (opPreOf cfg ++ base ++ "_Response")
            (primarySuccessCode opInfo.method),
            l ∈ (_generateOperationTypes compileO opInfo base gen0 cfg).1.typesString)) ∧
    (∀ (compileO : Compiler) (opInfo : OperationInfo) (base : String)
        (gen0 : List String) (cfg : GenCfg),
        opInfo.operation.requestBody = none →
        opInfo.operation.responses = [] →
        opInfo.operation.parameters.filter (fun p => p.location = "query") ≠ [] →
        (opPreOf cfg ++ base ++ "_Parameters") ∉ gen0 →
        compileO
          (JSchema.objectSchema
            (buildParamsSchema
              (opInfo.operation.parameters.filter (fun p => p.location = "query"))).1
            (buildParamsSchema
              (opInfo.operation.parameters.filter (fun p => p.location = "query"))).2)
          (opPreOf cfg ++ base ++ "_Parameters") = none →
        (_generateOperationTypes compileO opInfo base gen0 cfg).1.parametersTypeFailed = true ∧
        (∀ l ∈ warnFailLines (opPreOf cfg ++ base ++ "_Parameters"),
            l ∈ (_generateOperationTypes compileO opInfo base gen0 cfg).1.typesString) ∧
        (_generateOperationTypes compileO opInfo base gen0 cfg).1.parametersTypeName = none) := by
  refine ⟨?_, ?_, ?_⟩
  · intro compileO opInfo base gen0 cfg rb sch tagImportName processedPath authRequire
      hreq hhc hsch hfresh hfail
    unfold _generateOperationTypes
    rw [hreq]
    dsimp only
    rw [requestBodyStep_fail_eq compileO rb (opPreOf cfg) base (schemaPreOf cfg)
      gen0 sch hhc hsch hfresh hfail]
    dsimp
    refine ⟨rfl, ?_, rfl, ?_⟩
    · intro l hl
      exact List.mem_append_left _ (List.mem_append_left _ hl)
    · unfold _generateFunctionFactory
      dsimp
      rw [hreq]
      rfl
  · intro compileO opInfo base gen0 cfg sch hreq hresp hfresh hfail
    unfold _generateOperationTypes
    rw [hreq, hresp]
    dsimp only
    have hrb : requestBodyStep compileO none (opPreOf cfg) base (schemaPreOf cfg) gen0 =
        ⟨[], gen0, none, false⟩ := rfl
    rw [hrb]
    rw [List.foldl_cons, List.foldl_nil]
    rw [responseStep_fail_primary_eq compileO (opPreOf cfg) base (schemaPreOf cfg)
      opInfo.method ⟨[], gen0, none, false, false⟩ sch hfresh hfail]
    dsimp
    refine ⟨rfl, ?_⟩
    intro l hl
    exact List.mem_append_left _ hl
  · intro compileO opInfo base gen0 cfg hreq hresp hqp hfresh hfail
    unfold _generateOperationTypes
    rw [hreq, hresp]
    dsimp only
    have hrb : requestBodyStep compileO none (opPreOf cfg) base (schemaPreOf cfg) gen0 =
        ⟨[], gen0, none, false⟩ := rfl
    rw [hrb]
    rw [List.foldl_nil]
    rw [parametersStep_fail_eq compileO opInfo.operation.parameters (opPreOf cfg)
      base (schemaPreOf cfg) gen0 hqp hfresh hfail]
    dsimp
    refine ⟨rfl, ?_, rfl⟩
    intro l hl
    exact hl

/-- Witness for the amended C3: one failing request body, one failing
primary response, one failing query-parameters object; each sets its
failure flag. -/
theorem C3_amended_failure_flag_warning_no_alias_witness :
    ((_generateOperationTypes (fun _ _ => none)
        ⟨"/pets", "post", ⟨some ⟨true, some (JSchema.leaf "rb")⟩, [], []⟩⟩
        "CreatePet" [] ⟨none, none⟩).1.requestBodyFailed = true) ∧
    ((_generateOperationTypes (fun _ _ => none)
        ⟨"/pets", "get", ⟨none, [("200", ⟨some ⟨some (JSchema.leaf "r")⟩⟩)], []⟩⟩
        "GetPet" [] ⟨none, none⟩).1.responseTypeFailed = true) ∧
    ((_generateOperationTypes (fun _ _ => none)
        ⟨"/pets", "get", ⟨none, [], [⟨"limit", "query", true, none⟩]⟩⟩
        "ListPets" [] ⟨none, none⟩).1.parametersTypeFailed = true) :=
  ⟨(C3_amended_failure_flag_warning_no_alias.1 (fun _ _ => none)
      ⟨"/pets", "post", ⟨some ⟨true, some (JSchema.leaf "rb")⟩, [], []⟩⟩
      "CreatePet" [] ⟨none, none⟩ ⟨true, some (JSchema.leaf "rb")⟩
      (JSchema.leaf "rb") "T" "/pets" false rfl rfl rfl (by decide) rfl).1,
   (C3_amended_failure_flag_warning_no_alias.2.1 (fun _ _ => none)
      ⟨"/pets", "get", ⟨none, [("200", ⟨some ⟨some (JSchema.leaf "r")⟩⟩)], []⟩⟩
      "GetPet" [] ⟨none, none⟩ (JSchema.leaf "r") rfl rfl (by decide) rfl).1,
   (C3_amended_failure_flag_warning_no_alias.2.2 (fun _ _ => none)
      ⟨"/pets", "get", ⟨none, [], [⟨"limit", "query", true, none⟩]⟩⟩
      "ListPets" [] ⟨none, none⟩ rfl rfl (List.cons_ne_nil _ _) (by decide) rfl).1⟩

/-! ## Claim C4 -/

theorem compileFragment_name_mem (compileO : Compiler) (sch : JSchema)
    (tn pre : String) (gen : List String) (warn : TsCode)
    (h2 : ∃ ts, compileO sch tn = some ts) :
    tn ∈ (compileFragment compileO sch tn pre gen warn).gen := by
  unfold compileFragment
  by_cases hm : tn ∈ gen
  · rw [if_pos hm]
    exact hm
  · rw [if_neg hm]
    obtain ⟨ts, hts⟩ := h2
    rw [hts]
    exact mem_setAdd_self _ _

theorem responseStep_nonprimary_mem (compileO : Compiler)
    (opPre base pre method : String) (st : RespState) (s : String) (sch : JSchema)
    (h2xx : strHasPre "2" s = true) (hne : s ≠ primarySuccessCode method)
    (hco : ∃ ts, compileO sch (opPre ++ base ++ "_Response" ++ ("_" ++ s)) = some ts) :
    (opPre ++ base ++ "_Response" ++ ("_" ++ s)) ∈
      (responseStep compileO opPre base pre method st (s, ⟨some ⟨some sch⟩⟩)).gen := by
  unfold responseStep
  dsimp
  rw [if_pos h2xx, if_neg hne, if_neg hne]
  dsimp
  exact compileFragment_name_mem compileO sch _ pre st.gen _ hco

/-- C4: the primary success status code used to pick the unsuffixed
`_Response` name is exactly "201" when the operation's method is POST (the
lowercase path-item key "post") and "200" for every other method; on an
operation with a single 2xx response, the primary code yields the
unsuffixed primary response name, and any other 2xx code registers the
status-code-suffixed `_Response_<code>` name and claims no primary name. -/
theorem C4_primary_code_and_suffix (cfg : GenCfg) (path method base s : String)
    (sch : JSchema) (compileO : Compiler) (gen0 : List String)
    (h2xx : strHasPre "2" s = true) :
    (primarySuccessCode method = (if method = "post" then "201" else "200")) ∧
    (s = primarySuccessCode method →
      (_generateOperationTypes compileO
          ⟨path, method, ⟨none, [(s, ⟨some ⟨some sch⟩⟩)], []⟩⟩ base gen0
          cfg).1.primaryResponseTypeName =
        some (opPreOf cfg ++ base ++ "_Response")) ∧
    (s ≠ primarySuccessCode method →
      (_generateOperationTypes compileO
          ⟨path, method, ⟨none, [(s, ⟨some ⟨some sch⟩⟩)], []⟩⟩ base gen0
          cfg).1.primaryResponseTypeName = none ∧
      ((∃ ts, compileO sch (opPreOf cfg ++ base ++ "_Response" ++ ("_" ++ s)) = some ts) →
        (opPreOf cfg ++ base ++ "_Response" ++ ("_" ++ s)) ∈
          (_generateOperationTypes compileO
            ⟨path, method, ⟨none, [(s, ⟨some ⟨some sch⟩⟩)], []⟩⟩ base gen0 cfg).2)) := by
  refine ⟨rfl, ?_, ?_⟩
  · intro hp
    subst hp
    unfold _generateOperationTypes
    dsimp only
    have hrb : requestBodyStep compileO none (opPreOf cfg) base (schemaPreOf cfg) gen0 =
        ⟨[], gen0, none, false⟩ := rfl
    rw [hrb]
    rw [List.foldl_cons, List.foldl_nil]
    exact responseStep_primary_name compileO (opPreOf cfg) base (schemaPreOf cfg)
      method ⟨[], gen0, none, false, false⟩ sch
  · intro hne
    unfold _generateOperationTypes
    dsimp only
    have hrb : requestBodyStep compileO none (opPreOf cfg) base (schemaPreOf cfg) gen0 =
        ⟨[], gen0, none, false⟩ := rfl
    rw [hrb]
    rw [List.foldl_cons, List.foldl_nil]
    constructor
    · exact (responseStep_nonprimary_fields compileO (opPreOf cfg) base
        (schemaPreOf cfg) method ⟨[], gen0, none, false, false⟩
        (s, ⟨some ⟨some sch⟩⟩) hne).1
    · intro hco
      exact responseStep_nonprimary_mem compileO (opPreOf cfg) base (schemaPreOf cfg)
        method ⟨[], gen0, none, false, false⟩ s sch h2xx hne hco

/-- Witness for C4 on a POST operation: "201" is primary, "200" is
suffixed. -/
theorem C4_primary_code_and_suffix_witness :
    ((_generateOperationTypes (fun _ _ => some [])
        ⟨"/pets", "post", ⟨none, [("201", ⟨some ⟨some (JSchema.leaf "r")⟩⟩)], []⟩⟩
        "CreatePet" [] ⟨none, none⟩).1.primaryResponseTypeName =
      some ("" ++ "CreatePet" ++ "_Response")) ∧
    ((_generateOperationTypes (fun _ _ => some [])
        ⟨"/pets", "post", ⟨none, [("200", ⟨some ⟨some (JSchema.leaf "r")⟩⟩)], []⟩⟩
        "CreatePet" [] ⟨none, none⟩).1.primaryResponseTypeName = none ∧
      ("" ++ "CreatePet" ++ "_Response" ++ ("_" ++ "200")) ∈
        (_generateOperationTypes (fun _ _ => some [])
          ⟨"/pets", "post", ⟨none, [("200", ⟨some ⟨some (JSchema.leaf "r")⟩⟩)], []⟩⟩
          "CreatePet" [] ⟨none, none⟩).2) :=
  ⟨(C4_primary_code_and_suffix ⟨none, none⟩ "/pets" "post" "CreatePet" "201"
      (JSchema.leaf "r") (fun _ _ => some []) [] (by decide)).2.1 (by decide),
   ⟨((C4_primary_code_and_suffix ⟨none, none⟩ "/pets" "post" "CreatePet" "200"
      (JSchema.leaf "r") (fun _ _ => some []) [] (by decide)).2.2 (by decide)).1,
    ((C4_primary_code_and_suffix ⟨none, none⟩ "/pets" "post" "CreatePet" "200"
      (JSchema.leaf "r") (fun _ _ => some []) [] (by decide)).2.2 (by decide)).2
      ⟨[], rfl⟩⟩⟩

/-! ## Claim C5 -/

theorem responseStep_flag_false (compileO : Compiler)
    (opPre base pre method : String) (st : RespState)
    (e : String × ResponseObject) (hst : st.responseTypeFailed = false)
    (hsafe : e.1 = primarySuccessCode method →
      (e.2.content = none ∨ ∃ c sch, e.2.content = some c ∧ c.jsonSchema = some sch ∧
        compileO sch (opPre ++ base ++ "_Response") ≠ none)) :
    (responseStep compileO opPre base pre method st e).responseTypeFailed = false := by
  by_cases hip : e.1 = primarySuccessCode method
  · rcases hsafe hip with hnone | ⟨c, sch, hc, hsch, hco⟩
    · unfold responseStep
      dsimp
      rw [hnone]
      by_cases h2 : strHasPre "2" e.1 = true
      · rw [if_pos h2]
        dsimp
        rw [if_pos hip]
        exact hst
      · rw [if_neg h2]
        exact hst
    · unfold responseStep
      dsimp
      rw [hc]
      by_cases h2 : strHasPre "2" e.1 = true
      · rw [if_pos h2]
        dsimp
        rw [hsch]
        dsimp
        rw [if_pos hip, if_pos hip]
        dsimp
        have happ : opPre ++ base ++ "_Response" ++ "" = opPre ++ base ++ "_Response" := by
          simp
        rw [happ]
        have hff : (compileFragment compileO sch (opPre ++ base ++ "_Response") pre
            st.gen (respWarnFailLines (opPre ++ base ++ "_Response") e.1)).failed = false := by
          cases hf : (compileFragment compileO sch (opPre ++ base ++ "_Response") pre
              st.gen (respWarnFailLines (opPre ++ base ++ "_Response") e.1)).failed with
          | false => rfl
          | true => exact absurd (compileFragment_failed_imp _ _ _ _ _ _ hf) hco
        rw [if_neg (fun hcon => by rw [hff] at hcon; cases hcon.2)]
        exact hst
      · rw [if_neg h2]
        exact hst
  · unfold responseStep
    dsimp
    by_cases h2 : strHasPre "2" e.1 = true
    · rw [if_pos h2]
      cases e.2.content with
      | none =>
          dsimp
          rw [if_neg hip]
          exact hst
      | some c =>
          dsimp
          cases c.jsonSchema with
          | none =>
              dsimp
              rw [if_neg hip]
              exact hst
          | some sch =>
              rw [if_neg hip, if_neg hip]
              dsimp
              rw [if_neg (fun hcon => hip hcon.1)]
              exact hst
    · rw [if_neg h2]
      exact hst

theorem respFold_flag_false (compileO : Compiler) (opPre base pre method : String) :
    ∀ (entries : List (String × ResponseObject)) (st : RespState),
      st.responseTypeFailed = false →
      (∀ e ∈ entries, e.1 = primarySuccessCode method →
        (e.2.content = none ∨ ∃ c sch, e.2.content = some c ∧ c.jsonSchema = some sch ∧
          compileO sch (opPre ++ base ++ "_Response") ≠ none)) →
      (entries.foldl (responseStep compileO opPre base pre method)
          st).responseTypeFailed = false := by
  intro entries
  induction entries with
  | nil => intro st hst _; exact hst
  | cons e rest ih =>
      intro st hst hsafe
      rw [List.foldl_cons]
      exact ih _
        (responseStep_flag_false compileO opPre base pre method st e hst
          (hsafe e (List.mem_cons_self _ _)))
        (fun e2 he2 => hsafe e2 (List.mem_cons_of_mem _ he2))

theorem responseStep_flag_source (compileO : Compiler)
    (opPre base pre method : String) (st : RespState)
    (e : String × ResponseObject)
    (h : (responseStep compileO opPre base pre method st e).responseTypeFailed = true) :
    st.responseTypeFailed = true ∨
      (strHasPre "2" e.1 = true ∧ e.1 = primarySuccessCode method ∧
        ∃ c, e.2.content = some c ∧
          (c.jsonSchema = none ∨ ∃ sch, c.jsonSchema = some sch ∧
            compileO sch (opPre ++ base ++ "_Response") = none)) := by
  by_cases hflag : st.responseTypeFailed = true
  · left; exact hflag
  · right
    have hstf : st.responseTypeFailed = false := by
      cases hsf : st.responseTypeFailed with
      | false => rfl
      | true => exact absurd hsf hflag
    by_cases h2 : strHasPre "2" e.1 = true
    · refine ⟨h2, ?_⟩
      by_cases hip : e.1 = primarySuccessCode method
      · refine ⟨hip, ?_⟩
        cases hcont : e.2.content with
        | none =>
            exfalso
            unfold responseStep at h
            dsimp at h
            rw [hcont, if_pos h2] at h
            dsimp at h
            rw [if_pos hip] at h
            rw [hstf] at h
            cases h
        | some c =>
            refine ⟨c, rfl, ?_⟩
            cases hsch : c.jsonSchema with
            | none => left; rfl
            | some sch =>
                right
                refine ⟨sch, rfl, ?_⟩
                unfold responseStep at h
                dsimp at h
                rw [hcont, if_pos h2] at h
                dsimp at h
                rw [hsch] at h
                dsimp at h
                rw [if_pos hip, if_pos hip] at h
                dsimp at h
                have happ : opPre ++ base ++ "_Response" ++ "" =
                    opPre ++ base ++ "_Response" := by simp
                rw [happ] at h
                by_cases hff : (compileFragment compileO sch
                    (opPre ++ base ++ "_Response") pre st.gen
                    (respWarnFailLines (opPre ++ base ++ "_Response") e.1)).failed = true
                · exact compileFragment_failed_imp _ _ _ _ _ _ hff
                · exfalso
                  rw [if_neg (fun hcon => hff hcon.2)] at h
                  rw [hstf] at h
                  cases h
      · exfalso
        obtain ⟨_, _, himp⟩ := responseStep_nonprimary_fields compileO opPre base pre
          method st e hip
        rw [hstf] at himp
        cases himp h
    · exfalso
      unfold responseStep at h
      dsimp at h
      rw [if_neg h2] at h
      rw [hstf] at h
      cases h

theorem respFold_flag_source (compileO : Compiler) (opPre base pre method : String) :
    ∀ (entries : List (String × ResponseObject)) (st : RespState),
      (entries.foldl (responseStep compileO opPre base pre method)
          st).responseTypeFailed = true →
      st.responseTypeFailed = true ∨
        ∃ e ∈ entries, strHasPre "2" e.1 = true ∧
          e.1 = primarySuccessCode method ∧
          ∃ c, e.2.content = some c ∧
            (c.jsonSchema = none ∨ ∃ sch, c.jsonSchema = some sch ∧
              compileO sch (opPre ++ base ++ "_Response") = none) := by
  intro entries
  induction entries with
  | nil => intro st h; left; exact h
  | cons e rest ih =>
      intro st h
      rw [List.foldl_cons] at h
      rcases ih _ h with hstep | ⟨e2, he2, hrest⟩
      · rcases responseStep_flag_source compileO opPre base pre method st e hstep with
          hleft | hright
        · left; exact hleft
        · right; exact ⟨e, List.mem_cons_self _ _, hright⟩
      · right; exact ⟨e2, List.mem_cons_of_mem _ he2, hrest⟩

/-- C5: a response compilation failure for a non-primary 2xx status code
leaves `responseTypeFailed` false; the flag becomes true only through the
primary status code — a primary response whose schema fails to compile, or a
primary response declared with content but no usable application/json
schema. -/
theorem C5_response_failure_flag_primary_only (compileO : Compiler)
    (opInfo : OperationInfo) (base : String) (gen0 : List String) (cfg : GenCfg) :
    ((∀ e ∈ opInfo.operation.responses, e.1 = primarySuccessCode opInfo.method →
        (e.2.content = none ∨ ∃ c sch, e.2.content = some c ∧ c.jsonSchema = some sch ∧
          compileO sch (opPreOf cfg ++ base ++ "_Response") ≠ none)) →
      (_generateOperationTypes compileO opInfo base gen0 cfg).1.responseTypeFailed = false) ∧
    ((_generateOperationTypes compileO opInfo base gen0 cfg).1.responseTypeFailed = true →
      ∃ e ∈ opInfo.operation.responses, strHasPre "2" e.1 = true ∧
        e.1 = primarySuccessCode opInfo.method ∧
        ∃ c, e.2.content = some c ∧
          (c.jsonSchema = none ∨ ∃ sch, c.jsonSchema = some sch ∧
            compileO sch (opPreOf cfg ++ base ++ "_Response") = none)) := by
  constructor
  · intro hsafe
    unfold _generateOperationTypes
    dsimp only
    exact respFold_flag_false compileO (opPreOf cfg) base (schemaPreOf cfg)
      opInfo.method opInfo.operation.responses _ rfl hsafe
  · intro h
    unfold _generateOperationTypes at h
    dsimp only at h
    rcases respFold_flag_source compileO (opPreOf cfg) base (schemaPreOf cfg)
      opInfo.method opInfo.operation.responses _ h with hinit | hsrc
    · cases hinit
    · exact hsrc

/-- Witness for C5: a POST operation whose primary 201 response compiles and
whose non-primary 200 response fails to compile still reports
`responseTypeFailed = false`. -/
theorem C5_response_failure_flag_primary_only_witness :
    (_generateOperationTypes
        (fun _ n => if n = "CreatePet_Response" then some [] else none)
        ⟨"/pets", "post",
          ⟨none, [("201", ⟨some ⟨some (JSchema.leaf "a")⟩⟩),
                  ("200", ⟨some ⟨some (JSchema.leaf "b")⟩⟩)], []⟩⟩
        "CreatePet" [] ⟨none, none⟩).1.responseTypeFailed = false := by
  apply (C5_response_failure_flag_primary_only
    (fun _ n => if n = "CreatePet_Response" then some [] else none)
    ⟨"/pets", "post",
      ⟨none, [("201", ⟨some ⟨some (JSchema.leaf "a")⟩⟩),
              ("200", ⟨some ⟨some (JSchema.leaf "b")⟩⟩)], []⟩⟩
    "CreatePet" [] ⟨none, none⟩).1
  intro e he h201
  rcases List.mem_cons.mp he with rfl | he2
  · right
    exact ⟨⟨some (JSchema.leaf "a")⟩, JSchema.leaf "a", rfl, rfl, by decide⟩
  · rcases List.mem_cons.mp he2 with rfl | he3
    · exact absurd h201 (by decide)
    · cases he3

/-! ## Claim C9 -/

theorem responseStep_void_primary (compileO : Compiler)
    (opPre base pre method : String) (st : RespState) (resp : ResponseObject)
    (hcontent : resp.content = none) :
    responseStep compileO opPre base pre method st (primarySuccessCode method, resp) =
      { st with primaryResponseTypeName := some "void",
                primaryResponseTypeGenerated := true } := by
  unfold responseStep
  dsimp
  rw [hcontent, if_pos (primarySuccessCode_starts2 method)]
  dsimp
  rw [if_pos rfl]

theorem respFold_preserve_primary (compileO : Compiler)
    (opPre base pre method : String) :
    ∀ (entries : List (String × ResponseObject)) (st : RespState),
      (∀ e ∈ entries, e.1 ≠ primarySuccessCode method) →
      (entries.foldl (responseStep compileO opPre base pre method)
          st).primaryResponseTypeName = st.primaryResponseTypeName ∧
      (entries.foldl (responseStep compileO opPre base pre method)
          st).primaryResponseTypeGenerated = st.primaryResponseTypeGenerated := by
  intro entries
  induction entries with
  | nil => intro st _; exact ⟨rfl, rfl⟩
  | cons e rest ih =>
      intro st hne
      rw [List.foldl_cons]
      obtain ⟨h1, h2, _⟩ := responseStep_nonprimary_fields compileO opPre base pre
        method st e (hne e (List.mem_cons_self _ _))
      obtain ⟨ih1, ih2⟩ := ih _ (fun e2 he2 => hne e2 (List.mem_cons_of_mem _ he2))
      exact ⟨by rw [ih1, h1], by rw [ih2, h2]⟩

theorem respFold_void (compileO : Compiler) (opPre base pre method : String) :
    ∀ (entries : List (String × ResponseObject)) (st : RespState)
      (resp : ResponseObject),
      (primarySuccessCode method, resp) ∈ entries → resp.content = none →
      (entries.map Prod.fst).Nodup →
      (entries.foldl (responseStep compileO opPre base pre method)
          st).primaryResponseTypeName = some "void" ∧
      (entries.foldl (responseStep compileO opPre base pre method)
          st).primaryResponseTypeGenerated = true := by
  intro entries
  induction entries with
  | nil => intro st resp hmem; cases hmem
  | cons e rest ih =>
      intro st resp hmem hcontent hnd
      rw [List.foldl_cons]
      rcases List.mem_cons.mp hmem with heq | hmem2
      · subst heq
        have hkey := (List.nodup_cons.mp hnd).1
        dsimp at hkey
        have hner : ∀ e2 ∈ rest, e2.1 ≠ primarySuccessCode method := by
          intro e2 he2 hc
          exact hkey (hc ▸ List.mem_map_of_mem Prod.fst he2)
        rw [responseStep_void_primary compileO opPre base pre method st resp hcontent]
        obtain ⟨h1, h2⟩ := respFold_preserve_primary compileO opPre base pre method
          rest { st with primaryResponseTypeName := some "void",
                         primaryResponseTypeGenerated := true } hner
        refine ⟨?_, ?_⟩
        · rw [h1]
        · rw [h2]
      · exact ih _ resp hmem2 hcontent (List.nodup_cons.mp hnd).2

/-- C9: an operation whose primary success response is declared with no body
content resolves its primary response type to the literal "void" marker and
records it as generated; the accessor factory built from that result
defaults its response generic to "void" and its body returns `undefined`
cast to the response type instead of the response payload. -/
theorem C9_no_content_primary_void (compileO : Compiler)
    (opInfo : OperationInfo) (base : String) (gen0 : List String) (cfg : GenCfg)
    (resp : ResponseObject) (tagImportName processedPath : String)
    (authRequire : Bool)
    (hmem : (primarySuccessCode opInfo.method, resp) ∈ opInfo.operation.responses)
    (hcontent : resp.content = none)
    (hnd : (opInfo.operation.responses.map Prod.fst).Nodup) :
    (_generateOperationTypes compileO opInfo base gen0 cfg).1.primaryResponseTypeName =
        some "void" ∧
    (_generateOperationTypes compileO opInfo base gen0 cfg).1.primaryResponseTypeGenerated =
        true ∧
    (_generateFunctionFactory opInfo tagImportName processedPath authRequire
        (_generateOperationTypes compileO opInfo base gen0 cfg).1.requestBodyTypeName
        (_generateOperationTypes compileO opInfo base gen0 cfg).1.parametersTypeName
        (_generateOperationTypes compileO opInfo base gen0 cfg).1.primaryResponseTypeName
        (_generateOperationTypes compileO opInfo base gen0 cfg).1.requestBodyFailed
        (_generateOperationTypes compileO opInfo base gen0 cfg).1.parametersTypeFailed
        (_generateOperationTypes compileO opInfo base gen0 cfg).1.responseTypeFailed
        (_generateOperationTypes compileO opInfo base gen0 cfg).1.primaryResponseTypeGenerated).defaultResponseType =
      "void" ∧
    (_generateFunctionFactory opInfo tagImportName processedPath authRequire
        (_generateOperationTypes compileO opInfo base gen0 cfg).1.requestBodyTypeName
        (_generateOperationTypes compileO opInfo base gen0 cfg).1.parametersTypeName
        (_generateOperationTypes compileO opInfo base gen0 cfg).1.primaryResponseTypeName
        (_generateOperationTypes compileO opInfo base gen0 cfg).1.requestBodyFailed
        (_generateOperationTypes compileO opInfo base gen0 cfg).1.parametersTypeFailed
        (_generateOperationTypes compileO opInfo base gen0 cfg).1.responseTypeFailed
        (_generateOperationTypes compileO opInfo base gen0 cfg).1.primaryResponseTypeGenerated).bodyReturnStatement =
      "return undefined as TResponse; // Explicitly return undefined cast to TResponse" := by
  have hname : (_generateOperationTypes compileO opInfo base gen0 cfg).1.primaryResponseTypeName =
      some "void" ∧
      (_generateOperationTypes compileO opInfo base gen0 cfg).1.primaryResponseTypeGenerated =
        true := by
    unfold _generateOperationTypes
    dsimp only
    exact respFold_void compileO (opPreOf cfg) base (schemaPreOf cfg) opInfo.method
      opInfo.operation.responses _ resp hmem hcontent hnd
  refine ⟨hname.1, hname.2, ?_, ?_⟩
  · unfold _generateFunctionFactory
    dsimp only
    rw [hname.1]
    rw [if_pos rfl]
  · unfold _generateFunctionFactory
    dsimp only
    rw [hname.1]
    rw [if_pos rfl]
    rw [if_pos rfl]

/-- Witness for C9 on `GET /status` with a content-less 200 response. -/
theorem C9_no_content_primary_void_witness :
    (_generateOperationTypes (fun _ _ => none)
        ⟨"/status", "get", ⟨none, [("200", ⟨none⟩)], []⟩⟩
        "GetStatus" [] ⟨none, none⟩).1.primaryResponseTypeName = some "void" :=
  (C9_no_content_primary_void (fun _ _ => none)
    ⟨"/status", "get", ⟨none, [("200", ⟨none⟩)], []⟩⟩
    "GetStatus" [] ⟨none, none⟩ ⟨none⟩ "T" "/status" false
    (List.mem_cons_self _ _) rfl (by decide)).1

/-! ## Helper lemmas: string shapes in generated signatures -/

theorem strAppend_assoc (a b c : String) : a ++ b ++ c = a ++ (b ++ c) := by
  cases a; cases b; cases c
  exact congrArg String.mk (List.append_assoc _ _ _)

theorem append_suffix_ne (s suf c : String)
    (h : c.data.reverse.take suf.data.length ≠ suf.data.reverse) : s ++ suf ≠ c := by
  intro he
  apply h
  have h1 : (suf.data.reverse ++ s.data.reverse).take suf.data.length =
      suf.data.reverse := by
    rw [← List.length_reverse suf.data]
    exact List.take_left _ _
  rw [← he, strData_append, List.reverse_append, h1]

theorem pre_append_ne (p s c : String) (h : c.data.take p.data.length ≠ p.data) :
    p ++ s ≠ c := by
  intro he
  apply h
  rw [← he, strData_append, List.take_left]

theorem mem_ite_singleton {c : Prop} [Decidable c] {x y : String}
    (h : x ∈ (if c then [y] else [])) : c ∧ x = y := by
  by_cases hc : c
  · rw [if_pos hc] at h
    exact ⟨hc, List.mem_singleton.mp h⟩
  · rw [if_neg hc] at h
    cases h

theorem joinSep_sig_form :
    ∀ (l : List ParameterObject), l ≠ [] →
      ∃ s, joinSep ", " (l.map (fun p => toTsIdentifier p.name ++ ": string")) =
        s ++ ": string" := by
  intro l
  induction l with
  | nil => intro h; exact absurd rfl h
  | cons p rest ih =>
      intro _
      cases rest with
      | nil => exact ⟨toTsIdentifier p.name, rfl⟩
      | cons q rest2 =>
          obtain ⟨s, hs⟩ := ih (List.cons_ne_nil q rest2)
          refine ⟨toTsIdentifier p.name ++ ": string" ++ ", " ++ s, ?_⟩
          have hstep : joinSep ", "
              ((p :: q :: rest2).map (fun p => toTsIdentifier p.name ++ ": string")) =
              (toTsIdentifier p.name ++ ": string") ++ ", " ++
                joinSep ", " ((q :: rest2).map (fun p => toTsIdentifier p.name ++ ": string")) := rfl
          rw [hstep, hs]
          simp only [strAppend_assoc]

theorem compileFragment_name_iff (compileO : Compiler) (sch : JSchema)
    (tn pre : String) (gen : List String) (warn : TsCode) :
    (compileFragment compileO sch tn pre gen warn).typeName.isSome = true ↔
      (compileFragment compileO sch tn pre gen warn).failed = false := by
  unfold compileFragment
  by_cases hm : tn ∈ gen
  · rw [if_pos hm]
    exact ⟨fun _ => rfl, fun _ => rfl⟩
  · rw [if_neg hm]
    cases hco : compileO sch tn with
    | none =>
        dsimp
        constructor
        · intro hc; cases hc
        · intro hc; cases hc
    | some ts =>
        dsimp
        constructor
        · intro _; rfl
        · intro _; rfl

theorem parametersStep_name_iff (compileO : Compiler)
    (parameters : List ParameterObject) (opPre base pre : String)
    (gen : List String) :
    (parametersStep compileO parameters opPre base pre gen).typeName.isSome = true ↔
      (parameters.filter (fun p => p.location = "query") ≠ [] ∧
        (parametersStep compileO parameters opPre base pre gen).failed = false) := by
  unfold parametersStep
  dsimp
  by_cases h1 : parameters.filter (fun p => p.location = "query") = []
  · rw [if_neg (by rw [h1]; simp)]
    dsimp
    constructor
    · intro hc; cases hc
    · intro ⟨hc, _⟩; exact absurd h1 hc
  · rw [if_pos (List.length_pos.mpr h1)]
    rw [if_pos (buildParamsSchema_pos _ h1)]
    rw [compileFragment_name_iff]
    constructor
    · intro hf; exact ⟨h1, hf⟩
    · intro ⟨_, hf⟩; exact hf

theorem factory_data_param_iff (opInfo : OperationInfo)
    (tagImportName processedPath : String) (authRequire : Bool)
    (rb ps pr : Option String) (f1 f2 f3 f4 : Bool) :
    ("data: TRequestBody" ∈
        (_generateFunctionFactory opInfo tagImportName processedPath authRequire
          rb ps pr f1 f2 f3 f4).innerFuncParamsList) ↔
      opInfo.operation.requestBody.isSome = true := by
  unfold _generateFunctionFactory
  dsimp only
  constructor
  · intro h
    rcases List.mem_append.mp h with h | h
    · rcases List.mem_append.mp h with h | h
      · rcases List.mem_append.mp h with h | h
        · exfalso
          obtain ⟨p, _, hp⟩ := List.mem_map.mp h
          exact append_suffix_ne (toTsIdentifier p.name) ": string"
            "data: TRequestBody" (by decide) hp
        · exact (mem_ite_singleton h).1
      · exact absurd (mem_ite_singleton h).2 (by decide)
    · rcases List.mem_cons.mp h with h | h
      · exact absurd h.symm (pre_append_ne "callSpecificOptions?: " _
          "data: TRequestBody" (by decide))
      · rcases List.mem_cons.mp h with h | h
        · exact absurd h (by decide)
        · cases h
  · intro hrb
    apply List.mem_append.mpr
    left
    apply List.mem_append.mpr
    left
    apply List.mem_append.mpr
    right
    rw [if_pos hrb]
    exact List.mem_singleton_self _

theorem factory_params_param_iff (opInfo : OperationInfo)
    (tagImportName processedPath : String) (authRequire : Bool)
    (rb ps pr : Option String) (f1 f2 f3 f4 : Bool) :
    ("params: TQueryParams" ∈
        (_generateFunctionFactory opInfo tagImportName processedPath authRequire
          rb ps pr f1 f2 f3 f4).innerFuncParamsList) ↔
      ps.isSome = true := by
  unfold _generateFunctionFactory
  dsimp only
  constructor
  · intro h
    rcases List.mem_append.mp h with h | h
    · rcases List.mem_append.mp h with h | h
      · rcases List.mem_append.mp h with h | h
        · exfalso
          obtain ⟨p, _, hp⟩ := List.mem_map.mp h
          exact append_suffix_ne (toTsIdentifier p.name) ": string"
            "params: TQueryParams" (by decide) hp
        · exact absurd (mem_ite_singleton h).2 (by decide)
      · exact (mem_ite_singleton h).1
    · rcases List.mem_cons.mp h with h | h
      · exact absurd h.symm (pre_append_ne "callSpecificOptions?: " _
          "params: TQueryParams" (by decide))
      · rcases List.mem_cons.mp h with h | h
        · exact absurd h (by decide)
        · cases h
  · intro hps
    apply List.mem_append.mpr
    left
    apply List.mem_append.mpr
    right
    rw [if_pos hps]
    exact List.mem_singleton_self _

/-! ## Claim C6 -/

theorem genOpTypes_params_name_iff (compileO : Compiler) (opInfo : OperationInfo)
    (base : String) (gen0 : List String) (cfg : GenCfg) :
    (_generateOperationTypes compileO opInfo base gen0 cfg).1.parametersTypeName.isSome = true ↔
      (opInfo.operation.parameters.filter (fun p => p.location = "query") ≠ [] ∧
        (_generateOperationTypes compileO opInfo base gen0 cfg).1.parametersTypeFailed = false) := by
  unfold _generateOperationTypes
  dsimp only
  exact parametersStep_name_iff compileO opInfo.operation.parameters (opPreOf cfg)
    base (schemaPreOf cfg) _

/-- C6 counterexample: an operation that declares a query parameter whose
synthesized parameters type fails to compile; the generated accessor's
parameter list contains no query-parameters parameter, contradicting the
claim's "regardless of whether the parameters type compiled". -/
theorem C6_counterexample :
    ("params: TQueryParams" ∉
        (generateOperationArtifacts (fun _ _ => none)
          ⟨"/pets", "get", ⟨none, [], [⟨"limit", "query", true, none⟩]⟩⟩
          "GetPets" "T" "pets" "Pets" "useGetPets" "/pets" false []
          ⟨none, none⟩).2.1.innerFuncParamsList) ∧
    ((⟨"/pets", "get", ⟨none, [], [⟨"limit", "query", true, none⟩]⟩⟩ :
        OperationInfo).operation.parameters.filter
          (fun p => p.location = "query")).length = 1 := by
  decide

/-- C6 (amended): the generated accessor callable's parameter list contains
a request-body parameter exactly when a request body was declared (even if
its type failed to compile), and a query-parameters parameter exactly when
the operation declares query parameters AND the synthesized parameters type
is available (its compilation did not fail); a failed parameters type
removes the query parameter from the signature. -/
theorem C6_amended_signature_parameters (compileO : Compiler)
    (opInfo : OperationInfo)
    (typeBaseName tagImportName sanitizedTagName endpointBaseName
      hookFactoryName processedPath : String) (authRequire : Bool)
    (gen0 : List String) (cfg : GenCfg) :
    ("data: TRequestBody" ∈
        (generateOperationArtifacts compileO opInfo typeBaseName tagImportName
          sanitizedTagName endpointBaseName hookFactoryName processedPath
          authRequire gen0 cfg).2.1.innerFuncParamsList ↔
      opInfo.operation.requestBody.isSome = true) ∧
    ("params: TQueryParams" ∈
        (generateOperationArtifacts compileO opInfo typeBaseName tagImportName
          sanitizedTagName endpointBaseName hookFactoryName processedPath
          authRequire gen0 cfg).2.1.innerFuncParamsList ↔
      (opInfo.operation.parameters.filter (fun p => p.location = "query") ≠ [] ∧
        (_generateOperationTypes compileO opInfo typeBaseName gen0
          cfg).1.parametersTypeFailed = false)) := by
  unfold generateOperationArtifacts
  dsimp only
  constructor
  · exact factory_data_param_iff opInfo tagImportName processedPath authRequire _ _ _ _ _ _ _
  · exact (factory_params_param_iff opInfo tagImportName processedPath authRequire
      _ _ _ _ _ _ _).trans
      (genOpTypes_params_name_iff compileO opInfo typeBaseName gen0 cfg)

/-! ## Claim C7 -/

theorem hook_mutation_variables (opInfo : OperationInfo)
    (hookFactoryName tagImportName sanitizedTagName endpointBaseName : String)
    (rb ps pr : Option String) (pg : Bool) (pathParams : List ParameterObject)
    (hmut : (["POST", "PUT", "DELETE", "PATCH"] : List String).contains
        (toUpperStr opInfo.method) = true) :
    (opInfo.operation.requestBody.isSome = true → ps.isSome = true →
      (_generateHookFactory opInfo hookFactoryName tagImportName sanitizedTagName
          endpointBaseName rb ps pr pg pathParams).defaultMutationTVariables =
        (_generateHookFactory opInfo hookFactoryName tagImportName sanitizedTagName
          endpointBaseName rb ps pr pg pathParams).defaultRequestBodyType ∧
      "queryParams: TQueryParams" ∈
        (_generateHookFactory opInfo hookFactoryName tagImportName sanitizedTagName
          endpointBaseName rb ps pr pg pathParams).hookParams ∧
      ("TQueryParams = " ++
          (_generateHookFactory opInfo hookFactoryName tagImportName sanitizedTagName
            endpointBaseName rb ps pr pg pathParams).defaultQueryParamsType) ∈
        (_generateHookFactory opInfo hookFactoryName tagImportName sanitizedTagName
          endpointBaseName rb ps pr pg pathParams).hookGenerics) ∧
    (opInfo.operation.requestBody.isSome = true → ps.isSome = false →
      (_generateHookFactory opInfo hookFactoryName tagImportName sanitizedTagName
          endpointBaseName rb ps pr pg pathParams).defaultMutationTVariables =
        (_generateHookFactory opInfo hookFactoryName tagImportName sanitizedTagName
          endpointBaseName rb ps pr pg pathParams).defaultRequestBodyType) ∧
    (opInfo.operation.requestBody.isSome = false → ps.isSome = true →
      (_generateHookFactory opInfo hookFactoryName tagImportName sanitizedTagName
          endpointBaseName rb ps pr pg pathParams).defaultMutationTVariables =
        (_generateHookFactory opInfo hookFactoryName tagImportName sanitizedTagName
          endpointBaseName rb ps pr pg pathParams).defaultQueryParamsType) ∧
    (opInfo.operation.requestBody.isSome = false → ps.isSome = false →
      (_generateHookFactory opInfo hookFactoryName tagImportName sanitizedTagName
          endpointBaseName rb ps pr pg pathParams).defaultMutationTVariables = "void") := by
  unfold _generateHookFactory
  dsimp only
  rw [if_pos hmut]
  dsimp only
  refine ⟨?_, ?_, ?_, ?_⟩
  · intro hrb hps
    rw [if_pos ⟨hrb, hps⟩]
    refine ⟨rfl, ?_, ?_⟩
    · apply List.mem_append.mpr
      left
      apply List.mem_append.mpr
      right
      rw [if_pos ⟨hrb, hps⟩]
      exact List.mem_singleton_self _
    · apply List.mem_append.mpr
      right
      rw [if_pos ⟨hrb, hps⟩]
      exact List.mem_singleton_self _
  · intro hrb hps
    rw [if_neg (fun hc => by rw [hps] at hc; cases hc.2), if_pos hrb]
  · intro hrb hps
    rw [if_neg (fun hc => by rw [hrb] at hc; cases hc.1),
        if_neg (fun hc => by rw [hrb] at hc; cases hc),
        if_pos hps]
  · intro hrb hps
    rw [if_neg (fun hc => by rw [hrb] at hc; cases hc.1),
        if_neg (fun hc => by rw [hrb] at hc; cases hc),
        if_neg (fun hc => by rw [hps] at hc; cases hc)]

/-- C7 counterexample: a write-shaped (POST) operation that declares only
query parameters, whose parameters type fails to compile.  The claim's
"exactly one of the two declared" case requires the variables default to be
the query-parameters type, but the generated hook defaults its variables to
the "void" marker (and its query-parameters type default is "never"). -/
theorem C7_counterexample :
    ((generateOperationArtifacts (fun _ _ => none)
        ⟨"/pets", "post", ⟨none, [], [⟨"limit", "query", true, none⟩]⟩⟩
        "CreatePet" "T" "pets" "Pets" "useCreatePet" "/pets" false []
        ⟨none, none⟩).2.2.1.isMutation = true) ∧
    ((generateOperationArtifacts (fun _ _ => none)
        ⟨"/pets", "post", ⟨none, [], [⟨"limit", "query", true, none⟩]⟩⟩
        "CreatePet" "T" "pets" "Pets" "useCreatePet" "/pets" false []
        ⟨none, none⟩).2.2.1.defaultMutationTVariables = "void") ∧
    ((⟨"/pets", "post", ⟨none, [], [⟨"limit", "query", true, none⟩]⟩⟩ :
        OperationInfo).operation.parameters.filter
          (fun p => p.location = "query")).length = 1 ∧
    ((generateOperationArtifacts (fun _ _ => none)
        ⟨"/pets", "post", ⟨none, [], [⟨"limit", "query", true, none⟩]⟩⟩
        "CreatePet" "T" "pets" "Pets" "useCreatePet" "/pets" false []
        ⟨none, none⟩).2.2.1.defaultQueryParamsType = "never") := by
  decide

/-- C7 (amended): for a write-shaped (mutation) operation, the hook's
variables type defaults to the request-body type when a request body is
declared and the query-parameters type is available — in which case the
hook factory also takes a separate `queryParams` argument (with its own
generic) that is not part of variables; when only the request body is
declared, variables default to the request-body type; when only the
query-parameters type is available, to the query-parameters type; when
neither, to the "void" marker.  "Available" means declared and successfully
compiled: the parameters type name is present exactly when query parameters
are declared and their compilation did not fail. -/
theorem C7_amended_mutation_variables (compileO : Compiler)
    (opInfo : OperationInfo)
    (typeBaseName tagImportName sanitizedTagName endpointBaseName
      hookFactoryName processedPath : String) (authRequire : Bool)
    (gen0 : List String) (cfg : GenCfg)
    (hmut : (["POST", "PUT", "DELETE", "PATCH"] : List String).contains
        (toUpperStr opInfo.method) = true) :
    (opInfo.operation.requestBody.isSome = true →
      (_generateOperationTypes compileO opInfo typeBaseName gen0
          cfg).1.parametersTypeName.isSome = true →
      (generateOperationArtifacts compileO opInfo typeBaseName tagImportName
          sanitizedTagName endpointBaseName hookFactoryName processedPath
          authRequire gen0 cfg).2.2.1.defaultMutationTVariables =
        (generateOperationArtifacts compileO opInfo typeBaseName tagImportName
          sanitizedTagName endpointBaseName hookFactoryName processedPath
          authRequire gen0 cfg).2.2.1.defaultRequestBodyType ∧
      "queryParams: TQueryParams" ∈
        (generateOperationArtifacts compileO opInfo typeBaseName tagImportName
          sanitizedTagName endpointBaseName hookFactoryName processedPath
          authRequire gen0 cfg).2.2.1.hookParams ∧
      ("TQueryParams = " ++
          (generateOperationArtifacts compileO opInfo typeBaseName tagImportName
            sanitizedTagName endpointBaseName hookFactoryName processedPath
            authRequire gen0 cfg).2.2.1.defaultQueryParamsType) ∈
        (generateOperationArtifacts compileO opInfo typeBaseName tagImportName
          sanitizedTagName endpointBaseName hookFactoryName processedPath
          authRequire gen0 cfg).2.2.1.hookGenerics) ∧
    (opInfo.operation.requestBody.isSome = true →
      (_generateOperationTypes compileO opInfo typeBaseName gen0
          cfg).1.parametersTypeName.isSome = false →
      (generateOperationArtifacts compileO opInfo typeBaseName tagImportName
          sanitizedTagName endpointBaseName hookFactoryName processedPath
          authRequire gen0 cfg).2.2.1.defaultMutationTVariables =
        (generateOperationArtifacts compileO opInfo typeBaseName tagImportName
          sanitizedTagName endpointBaseName hookFactoryName processedPath
          authRequire gen0 cfg).2.2.1.defaultRequestBodyType) ∧
    (opInfo.operation.requestBody.isSome = false →
      (_generateOperationTypes compileO opInfo typeBaseName gen0
          cfg).1.parametersTypeName.isSome = true →
      (generateOperationArtifacts compileO opInfo typeBaseName tagImportName
          sanitizedTagName endpointBaseName hookFactoryName processedPath
          authRequire gen0 cfg).2.2.1.defaultMutationTVariables =
        (generateOperationArtifacts compileO opInfo typeBaseName tagImportName
          sanitizedTagName endpointBaseName hookFactoryName processedPath
          authRequire gen0 cfg).2.2.1.defaultQueryParamsType) ∧
    (opInfo.operation.requestBody.isSome = false →
      (_generateOperationTypes compileO opInfo typeBaseName gen0
          cfg).1.parametersTypeName.isSome = false →
      (generateOperationArtifacts compileO opInfo typeBaseName tagImportName
          sanitizedTagName endpointBaseName hookFactoryName processedPath
          authRequire gen0 cfg).2.2.1.defaultMutationTVariables = "void") ∧
    ((_generateOperationTypes compileO opInfo typeBaseName gen0
        cfg).1.parametersTypeName.isSome = true ↔
      (opInfo.operation.parameters.filter (fun p => p.location = "query") ≠ [] ∧
        (_generateOperationTypes compileO opInfo typeBaseName gen0
          cfg).1.parametersTypeFailed = false)) := by
  have h := hook_mutation_variables opInfo hookFactoryName tagImportName
    sanitizedTagName endpointBaseName
    (_generateOperationTypes compileO opInfo typeBaseName gen0 cfg).1.requestBodyTypeName
    (_generateOperationTypes compileO opInfo typeBaseName gen0 cfg).1.parametersTypeName
    (_generateOperationTypes compileO opInfo typeBaseName gen0 cfg).1.primaryResponseTypeName
    (_generateOperationTypes compileO opInfo typeBaseName gen0 cfg).1.primaryResponseTypeGenerated
    (opInfo.operation.parameters.filter (fun p => p.location = "path")) hmut
  unfold generateOperationArtifacts
  dsimp only
  exact ⟨h.1, h.2.1, h.2.2.1, h.2.2.2,
    genOpTypes_params_name_iff compileO opInfo typeBaseName gen0 cfg⟩

/-- Witness for the amended C7 on a POST with both a request body and a
compiling query-parameters type: variables default to the request-body type
and the hook takes a separate queryParams argument. -/
theorem C7_amended_mutation_variables_witness :
    (generateOperationArtifacts (fun _ _ => some [])
        ⟨"/pets", "post",
          ⟨some ⟨true, some (JSchema.leaf "rb")⟩, [],
           [⟨"limit", "query", true, none⟩]⟩⟩
        "CreatePet" "T" "pets" "Pets" "useCreatePet" "/pets" false []
        ⟨none, none⟩).2.2.1.defaultMutationTVariables =
      (generateOperationArtifacts (fun _ _ => some [])
        ⟨"/pets", "post",
          ⟨some ⟨true, some (JSchema.leaf "rb")⟩, [],
           [⟨"limit", "query", true, none⟩]⟩⟩
        "CreatePet" "T" "pets" "Pets" "useCreatePet" "/pets" false []
        ⟨none, none⟩).2.2.1.defaultRequestBodyType ∧
    "queryParams: TQueryParams" ∈
      (generateOperationArtifacts (fun _ _ => some [])
        ⟨"/pets", "post",
          ⟨some ⟨true, some (JSchema.leaf "rb")⟩, [],
           [⟨"limit", "query", true, none⟩]⟩⟩
        "CreatePet" "T" "pets" "Pets" "useCreatePet" "/pets" false []
        ⟨none, none⟩).2.2.1.hookParams := by
  have h := (C7_amended_mutation_variables (fun _ _ => some [])
    ⟨"/pets", "post",
      ⟨some ⟨true, some (JSchema.leaf "rb")⟩, [],
       [⟨"limit", "query", true, none⟩]⟩⟩
    "CreatePet" "T" "pets" "Pets" "useCreatePet" "/pets" false []
    ⟨none, none⟩ (by decide)).1 (by decide) (by decide)
  exact ⟨h.1, h.2.1⟩

theorem quoted_lit_data (s : String) :
    ("\x27" ++ s ++ "\x27").data = '\x27' :: (s.data ++ ['\x27']) := by
  rw [strData_append, strData_append]
  have h1 : ("\x27" : String).data = ['\x27'] := rfl
  rw [h1]
  simp

theorem isQuotedTok_lit (s : String) :
    isQuotedTok ("\x27" ++ s ++ "\x27") = true := by
  unfold isQuotedTok
  rw [quoted_lit_data]
  rfl

theorem unquoteTok_lit (s : String) :
    unquoteTok ("\x27" ++ s ++ "\x27") = s := by
  unfold unquoteTok
  rw [quoted_lit_data]
  show String.mk ((s.data ++ ['\x27']).dropLast) = s
  rw [List.dropLast_concat, strMk_data]

theorem evalKeyPart_quoted (env : List (String × String)) (qp : KeyVal)
    (s : String) :
    evalKeyPart env qp ("\x27" ++ s ++ "\x27") = KeyVal.strVal s := by
  unfold evalKeyPart
  rw [if_pos (isQuotedTok_lit s), unquoteTok_lit]

theorem evalKeyPart_qpArg (env : List (String × String)) (qp : KeyVal) :
    evalKeyPart env qp "queryParams" = qp := by
  unfold evalKeyPart
  have h : isQuotedTok "queryParams" = false := by decide
  rw [if_neg (by simp [h]), if_pos rfl]

theorem evalKeyPart_ident (env : List (String × String)) (qp : KeyVal)
    (i v : String) (hq : isQuotedTok i = false) (hne : i ≠ "queryParams")
    (hl : env.lookup i = some v) :
    evalKeyPart env qp i = KeyVal.strVal v := by
  unfold evalKeyPart
  rw [if_neg (by simp [hq]), if_neg hne, hl]

theorem evalKeyPart_env_cons (k v : String) (env : List (String × String))
    (qp : KeyVal) (a : String) (h : a ≠ k) :
    evalKeyPart ((k, v) :: env) qp a = evalKeyPart env qp a := by
  unfold evalKeyPart
  have hb : (a == k) = false := beq_eq_false_iff_ne.mpr h
  simp only [List.lookup, hb]

theorem lookup_cons_self (k v : String) (env : List (String × String)) :
    List.lookup k ((k, v) :: env) = some v := by
  simp [List.lookup]

theorem map_eval_zip (qp : KeyVal) :
    ∀ (idents vals : List String), idents.Nodup →
      (∀ i ∈ idents, i ≠ "queryParams") →
      (∀ i ∈ idents, isQuotedTok i = false) →
      vals.length = idents.length →
      idents.map (evalKeyPart (idents.zip vals) qp) = vals.map KeyVal.strVal
  | [], vals, _, _, _, hlen => by
      have hv : vals = [] := List.length_eq_zero.mp hlen
      subst hv; rfl
  | a :: as, [], _, _, _, hlen => by simp at hlen
  | a :: as, v :: vs, hnd, hqp, hq, hlen => by
      have hnd' := List.nodup_cons.mp hnd
      have hzip : (a :: as).zip (v :: vs) = (a, v) :: as.zip vs := rfl
      rw [hzip, List.map_cons, List.map_cons]
      congr 1
      · exact evalKeyPart_ident _ qp a v (hq a (List.mem_cons_self a as))
          (hqp a (List.mem_cons_self a as)) (lookup_cons_self a v _)
      · have htail : as.map (evalKeyPart ((a, v) :: as.zip vs) qp) =
            as.map (evalKeyPart (as.zip vs) qp) := by
          apply List.map_congr_left
          intro i hi
          exact evalKeyPart_env_cons a v _ qp i (fun he => hnd'.1 (he ▸ hi))
        rw [htail]
        exact map_eval_zip qp as vs hnd'.2
          (fun i hi => hqp i (List.mem_cons_of_mem a hi))
          (fun i hi => hq i (List.mem_cons_of_mem a hi))
          (by simp only [List.length_cons] at hlen; omega)

theorem hook_query_key_parts (opInfo : OperationInfo)
    (hookFactoryName tagImportName sanitizedTagName endpointBaseName : String)
    (rb ps pr : Option String) (pg : Bool) (pathParams : List ParameterObject)
    (hread : (["POST", "PUT", "DELETE", "PATCH"] : List String).contains
        (toUpperStr opInfo.method) = false) :
    (_generateHookFactory opInfo hookFactoryName tagImportName sanitizedTagName
        endpointBaseName rb ps pr pg pathParams).runtimeQueryKeyParts =
      ["\x27" ++ sanitizedTagName ++ "\x27", "\x27" ++ endpointBaseName ++ "\x27"] ++
        pathParams.map (fun p => toTsIdentifier p.name) ++
        (if ps.isSome then ["queryParams"] else []) := by
  unfold _generateHookFactory
  dsimp only
  rw [if_neg (by simpa using hread)]

/-- C8: for a read-shaped (query) operation, evaluating the generated
hook's runtime cache key at the hook's argument values yields exactly the
ordered tuple: the sanitized tag name, then the endpoint base name, then
each path-parameter value in the operation's declaration order, then the
query-parameters object exactly when the hook's query-parameters argument
exists (the parameters type name resolved).  The key is a pure function of
these argument values — `evalQueryKey` is a function — so identical values
always yield an identical tuple. -/
theorem C8_query_cache_key_tuple (compileO : Compiler) (opInfo : OperationInfo)
    (typeBaseName tagImportName sanitizedTagName endpointBaseName
      hookFactoryName processedPath : String) (authRequire : Bool)
    (gen0 : List String) (cfg : GenCfg) (vals : List String) (qp : KeyVal)
    (hread : (["POST", "PUT", "DELETE", "PATCH"] : List String).contains
        (toUpperStr opInfo.method) = false)
    (hnd : ((opInfo.operation.parameters.filter
        (fun p => p.location = "path")).map
          (fun p => toTsIdentifier p.name)).Nodup)
    (hqp : ∀ i ∈ (opInfo.operation.parameters.filter
        (fun p => p.location = "path")).map (fun p => toTsIdentifier p.name),
      i ≠ "queryParams")
    (hq : ∀ i ∈ (opInfo.operation.parameters.filter
        (fun p => p.location = "path")).map (fun p => toTsIdentifier p.name),
      isQuotedTok i = false)
    (hlen : vals.length = ((opInfo.operation.parameters.filter
        (fun p => p.location = "path")).map
          (fun p => toTsIdentifier p.name)).length) :
    evalQueryKey
        (generateOperationArtifacts compileO opInfo typeBaseName tagImportName
          sanitizedTagName endpointBaseName hookFactoryName processedPath
          authRequire gen0 cfg).2.2.1.runtimeQueryKeyParts
        (((opInfo.operation.parameters.filter
            (fun p => p.location = "path")).map
              (fun p => toTsIdentifier p.name)).zip vals) qp =
      KeyVal.strVal sanitizedTagName :: KeyVal.strVal endpointBaseName ::
        (vals.map KeyVal.strVal ++
          (if (_generateOperationTypes compileO opInfo typeBaseName gen0
              cfg).1.parametersTypeName.isSome then [qp] else [])) := by
  unfold generateOperationArtifacts
  dsimp only
  rw [hook_query_key_parts opInfo hookFactoryName tagImportName
    sanitizedTagName endpointBaseName
    (_generateOperationTypes compileO opInfo typeBaseName gen0 cfg).1.requestBodyTypeName
    (_generateOperationTypes compileO opInfo typeBaseName gen0 cfg).1.parametersTypeName
    (_generateOperationTypes compileO opInfo typeBaseName gen0 cfg).1.primaryResponseTypeName
    (_generateOperationTypes compileO opInfo typeBaseName gen0 cfg).1.primaryResponseTypeGenerated
    (opInfo.operation.parameters.filter (fun p => p.location = "path")) hread]
  unfold evalQueryKey
  rw [List.map_append, List.map_append, List.map_cons, List.map_cons,
    List.map_nil, evalKeyPart_quoted, evalKeyPart_quoted,
    map_eval_zip qp _ vals hnd hqp hq hlen]
  cases hps : (_generateOperationTypes compileO opInfo typeBaseName gen0
      cfg).1.parametersTypeName.isSome with
  | false => simp
  | true => simp [evalKeyPart_qpArg]

/-- Witness for C8 on a concrete GET with one path parameter and query
parameters whose type compiles. -/
theorem C8_query_cache_key_tuple_witness :
    evalQueryKey
        (generateOperationArtifacts (fun _ _ => some [])
          ⟨"/pets/\x7bpetId\x7d", "get",
            ⟨none, [],
             [⟨"petId", "path", true, none⟩, ⟨"limit", "query", true, none⟩]⟩⟩
          "GetPet" "T" "Pets" "Pet" "useGetPet" "/pets/\x7bpetId\x7d" false []
          ⟨none, none⟩).2.2.1.runtimeQueryKeyParts
        ((((⟨"/pets/\x7bpetId\x7d", "get",
            ⟨none, [],
             [⟨"petId", "path", true, none⟩, ⟨"limit", "query", true, none⟩]⟩⟩ :
              OperationInfo).operation.parameters.filter
            (fun p => p.location = "path")).map
              (fun p => toTsIdentifier p.name)).zip ["42"])
        (KeyVal.objVal "Q") =
      KeyVal.strVal "Pets" :: KeyVal.strVal "Pet" ::
        (["42"].map KeyVal.strVal ++
          (if (_generateOperationTypes (fun _ _ => some [])
              ⟨"/pets/\x7bpetId\x7d", "get",
                ⟨none, [],
                 [⟨"petId", "path", true, none⟩,
                  ⟨"limit", "query", true, none⟩]⟩⟩
              "GetPet" [] ⟨none, none⟩).1.parametersTypeName.isSome then
            [KeyVal.objVal "Q"]
           else [])) := by
  exact C8_query_cache_key_tuple (fun _ _ => some [])
    ⟨"/pets/\x7bpetId\x7d", "get",
      ⟨none, [],
       [⟨"petId", "path", true, none⟩, ⟨"limit", "query", true, none⟩]⟩⟩
    "GetPet" "T" "Pets" "Pet" "useGetPet" "/pets/\x7bpetId\x7d" false []
    ⟨none, none⟩ ["42"] (KeyVal.objVal "Q") (by decide) (by decide)
    (by decide) (by decide) (by decide)

theorem lookup_cons_ne (a k v : String) (l : List (String × String))
    (h : a ≠ k) : List.lookup a ((k, v) :: l) = List.lookup a l := by
  have hb : (a == k) = false := beq_eq_false_iff_ne.mpr h
  simp only [List.lookup, hb]

theorem lookup_write_map (fs : FileSys) (p c : String)
    (h : fs.any (fun e => e.1 = p) = true) :
    List.lookup p (fs.map (fun e => if e.1 = p then (p, c) else e)) = some c := by
  induction fs with
  | nil => cases h
  | cons e rest ih =>
      obtain ⟨k, v⟩ := e
      rw [List.map_cons]
      by_cases he : k = p
      · dsimp only
        rw [if_pos he]
        exact lookup_cons_self p c _
      · dsimp only
        rw [if_neg he]
        have h' : rest.any (fun x => x.1 = p) = true := by
          simp only [List.any_cons, Bool.or_eq_true, decide_eq_true_eq] at h
          exact h.resolve_left he
        rw [lookup_cons_ne p k v _ (fun hh => he hh.symm)]
        exact ih h'

theorem lookup_append_absent (fs : FileSys) (p : String) (l2 : FileSys)
    (h : fs.any (fun e => e.1 = p) = false) :
    List.lookup p (fs ++ l2) = List.lookup p l2 := by
  induction fs with
  | nil => rfl
  | cons e rest ih =>
      obtain ⟨k, v⟩ := e
      simp only [List.any_cons, Bool.or_eq_false_iff,
        decide_eq_false_iff_not] at h
      rw [List.cons_append, lookup_cons_ne p k v _ (fun hh => h.1 hh.symm)]
      exact ih h.2

theorem fsRead_write_same (fs : FileSys) (p c : String) :
    fsRead (fsWrite fs p c) p = some c := by
  unfold fsRead fsWrite
  by_cases h : fs.any (fun e => e.1 = p) = true
  · rw [if_pos h]
    exact lookup_write_map fs p c h
  · rw [if_neg h]
    have h' : fs.any (fun e => e.1 = p) = false := by
      cases hx : fs.any (fun e => e.1 = p)
      · rfl
      · exact absurd hx h
    rw [lookup_append_absent fs p _ h']
    exact lookup_cons_self p c []

theorem fsRead_write_other (fs : FileSys) (p c q : String) (hne : q ≠ p) :
    fsRead (fsWrite fs p c) q = fsRead fs q := by
  unfold fsRead fsWrite
  by_cases h : fs.any (fun e => e.1 = p) = true
  · rw [if_pos h]
    clear h
    induction fs with
    | nil => rfl
    | cons e rest ih =>
        obtain ⟨k, v⟩ := e
        rw [List.map_cons]
        by_cases he : k = p
        · dsimp only
          rw [if_pos he]
          rw [lookup_cons_ne q p c _ hne,
            lookup_cons_ne q k v _ (fun hh => hne (hh.trans he))]
          exact ih
        · dsimp only
          rw [if_neg he]
          by_cases hq : q = k
          · subst hq
            rw [lookup_cons_self, lookup_cons_self]
          · rw [lookup_cons_ne q k v _ hq, lookup_cons_ne q k v _ hq]
            exact ih
  · rw [if_neg h]
    clear h
    induction fs with
    | nil =>
        rw [List.nil_append]
        exact lookup_cons_ne q p c [] hne
    | cons e rest ih =>
        obtain ⟨k, v⟩ := e
        by_cases hq : q = k
        · subst hq
          rw [List.cons_append, lookup_cons_self, lookup_cons_self]
        · rw [List.cons_append, lookup_cons_ne q k v _ hq,
            lookup_cons_ne q k v _ hq]
          exact ih

theorem fsExists_eq_read_isSome (fs : FileSys) (p : String) :
    fsExists fs p = (fsRead fs p).isSome := by
  unfold fsExists fsRead
  induction fs with
  | nil => rfl
  | cons e rest ih =>
      obtain ⟨k, v⟩ := e
      by_cases h : k = p
      · subst h
        rw [lookup_cons_self]
        simp [List.any_cons]
      · rw [lookup_cons_ne p k v _ (fun hh => h hh.symm)]
        simp only [List.any_cons, Bool.or_eq_true, decide_eq_true_eq]
        rw [← ih]
        simp [h]

theorem strAppend_left_cancel (a b c : String) (h : a ++ b = a ++ c) :
    b = c := by
  have hd : a.data ++ b.data = a.data ++ c.data := by
    rw [← strData_append, ← strData_append, h]
  have hbc := List.append_cancel_left hd
  calc b = String.mk b.data := (strMk_data b).symm
  _ = String.mk c.data := by rw [hbc]
  _ = c := strMk_data c

theorem writeTagFiles_frame (cfg : RunCfg) (base : String) (fs : FileSys)
    (tag : TagGenData) (p : String)
    (h : p ∉ tagFilePaths cfg base tag) :
    fsRead (writeTagFiles cfg base fs tag) p = fsRead fs p := by
  simp only [tagFilePaths, clientPath, tagDir, List.mem_cons,
    List.not_mem_nil, or_false, not_or] at h
  obtain ⟨h1, h2, h3, h4, h5⟩ := h
  unfold writeTagFiles
  dsimp only
  rw [fsRead_write_other _ _ _ _ h5, fsRead_write_other _ _ _ _ h4]
  by_cases hh : (cfg.generateHooks = true ∧ tag.hooksContent.trim ≠ "")
  · rw [if_pos hh, fsRead_write_other _ _ _ _ h3,
      fsRead_write_other _ _ _ _ h2, fsRead_write_other _ _ _ _ h1]
  · rw [if_neg hh, fsRead_write_other _ _ _ _ h2,
      fsRead_write_other _ _ _ _ h1]

theorem foldl_writeTagFiles_frame (cfg : RunCfg) (base : String) (p : String) :
    ∀ (tags : List TagGenData) (fs : FileSys),
      (∀ t ∈ tags, p ∉ tagFilePaths cfg base t) →
      fsRead (tags.foldl (writeTagFiles cfg base) fs) p = fsRead fs p
  | [], _, _ => rfl
  | t :: ts, fs, h => by
      rw [List.foldl_cons,
        foldl_writeTagFiles_frame cfg base p ts _
          (fun t2 ht2 => h t2 (List.mem_cons_of_mem t ht2))]
      exact writeTagFiles_frame cfg base fs t p (h t (List.mem_cons_self t ts))

theorem writeTagFiles_client_read (cfg : RunCfg) (base : String) (fs : FileSys)
    (tag : TagGenData)
    (hbase : cfg.generatedClientModuleBasename ++ ".ts" ≠ "index.ts") :
    fsRead (writeTagFiles cfg base fs tag) (clientPath cfg base tag) =
      some (clientModuleContent cfg tag
        (cfg.generateHooks ∧ tag.hooksContent.trim ≠ "")) := by
  have hne2 : clientPath cfg base tag ≠
      pathJoin (pathJoin base tag.sanitizedTagName) "index.ts" := by
    unfold clientPath tagDir pathJoin
    intro hcontr
    exact hbase (strAppend_left_cancel _ _ _ hcontr)
  unfold writeTagFiles
  dsimp only
  rw [fsRead_write_other _ _ _ _ hne2]
  simp only [clientPath, tagDir]
  exact fsRead_write_same _ _ _

/-- C10: on a run with a custom requester configured (resolved scaffold path
`sp`), the scaffold file is written only when scaffolding is enabled and no
file exists at `sp`; an existing file at `sp` is never overwritten or
modified; with scaffolding disabled an absent scaffold stays absent; and
every tag's orchestrator client module is freshly regenerated — overwritten
in full — from the configuration and tag data alone on every run. -/
theorem C10_scaffold_once_client_overwritten (cfg : RunCfg)
    (baseOutputDir : String) (tags : List TagGenData) (fs0 : FileSys)
    (sp : String)
    (hsp : customRequesterPath? cfg baseOutputDir = some sp)
    (hspout : ∀ t ∈ tags, sp ∉ tagFilePaths cfg baseOutputDir t)
    (hnd : tags.Nodup)
    (hbase : cfg.generatedClientModuleBasename ++ ".ts" ≠ "index.ts") :
    (fsExists fs0 sp = true →
      fsRead (runGenerator cfg baseOutputDir tags fs0) sp = fsRead fs0 sp) ∧
    (fsExists fs0 sp = false → cfg.scaffoldRequesterAdapter = true →
      fsRead (runGenerator cfg baseOutputDir tags fs0) sp =
        some (scaffoldContent cfg.customRequesterExportName)) ∧
    (fsExists fs0 sp = false → cfg.scaffoldRequesterAdapter = false →
      fsRead (runGenerator cfg baseOutputDir tags fs0) sp = none) ∧
    (∀ tag, tag ∈ tags →
      (∀ t2 ∈ tags, t2 ≠ tag →
        clientPath cfg baseOutputDir tag ∉ tagFilePaths cfg baseOutputDir t2) →
      fsRead (runGenerator cfg baseOutputDir tags fs0)
          (clientPath cfg baseOutputDir tag) =
        some (clientModuleContent cfg tag
          (cfg.generateHooks ∧ tag.hooksContent.trim ≠ ""))) := by
  have hframe : fsRead (tags.foldl (writeTagFiles cfg baseOutputDir) fs0) sp =
      fsRead fs0 sp :=
    foldl_writeTagFiles_frame cfg baseOutputDir sp tags fs0 hspout
  have hfe : fsExists (tags.foldl (writeTagFiles cfg baseOutputDir) fs0) sp =
      fsExists fs0 sp := by
    rw [fsExists_eq_read_isSome, fsExists_eq_read_isSome, hframe]
  refine ⟨?_, ?_, ?_, ?_⟩
  · intro hex
    unfold runGenerator
    rw [hsp]
    dsimp only
    rw [if_neg (fun hc => hc.2 (by rw [hfe]; exact hex))]
    exact hframe
  · intro hex hsc
    unfold runGenerator
    rw [hsp]
    dsimp only
    rw [if_pos ⟨hsc, by rw [hfe, hex]; exact fun hc => Bool.noConfusion hc⟩]
    exact fsRead_write_same _ _ _
  · intro hex hsc
    unfold runGenerator
    rw [hsp]
    dsimp only
    rw [if_neg (fun hc => by rw [hsc] at hc; exact Bool.noConfusion hc.1)]
    have hnone : fsRead fs0 sp = none := by
      have hh := fsExists_eq_read_isSome fs0 sp
      rw [hex] at hh
      cases hr : fsRead fs0 sp with
      | none => rfl
      | some c => rw [hr] at hh; simp at hh
    rw [hframe]
    exact hnone
  · intro tag htag hdisj
    obtain ⟨l1, l2, htags⟩ := List.append_of_mem htag
    subst htags
    have hnotin : tag ∉ l2 :=
      (List.nodup_cons.mp hnd.of_append_right).1
    have hcl : fsRead ((l1 ++ tag :: l2).foldl
        (writeTagFiles cfg baseOutputDir) fs0)
        (clientPath cfg baseOutputDir tag) =
        some (clientModuleContent cfg tag
          (cfg.generateHooks ∧ tag.hooksContent.trim ≠ "")) := by
      rw [List.foldl_append, List.foldl_cons]
      rw [foldl_writeTagFiles_frame cfg baseOutputDir _ l2 _
        (fun t2 ht2 => hdisj t2
          (List.mem_append.mpr (Or.inr (List.mem_cons_of_mem tag ht2)))
          (fun he => hnotin (he ▸ ht2)))]
      exact writeTagFiles_client_read cfg baseOutputDir _ tag hbase
    have hspne : clientPath cfg baseOutputDir tag ≠ sp := by
      intro he
      exact hspout tag htag (he ▸ (by simp [tagFilePaths] :
        clientPath cfg baseOutputDir tag ∈
          tagFilePaths cfg baseOutputDir tag))
    unfold runGenerator
    rw [hsp]
    dsimp only
    by_cases hc : (cfg.scaffoldRequesterAdapter = true ∧
        ¬ fsExists ((l1 ++ tag :: l2).foldl
          (writeTagFiles cfg baseOutputDir) fs0) sp = true)
    · rw [if_pos hc, fsRead_write_other _ _ _ _ hspne]
      exact hcl
    · rw [if_neg hc]
      exact hcl

/-- Witness for C10 on a concrete run: empty initial file system, one tag,
custom requester at the default relative path, scaffolding enabled: the
scaffold is created and the client module holds the freshly computed
content. -/
theorem C10_scaffold_once_client_overwritten_witness :
    fsRead (runGenerator
        (⟨false, some "sg-requester.ts", "SchemaSyncRequester", true,
          "client", true, true⟩ : RunCfg) "out"
        [⟨"pets", "TY", "FN", "HK", ["createGetPetFunction"],
          ["createUseGetPetHook"]⟩] []) "out/sg-requester.ts" =
      some (scaffoldContent "SchemaSyncRequester") ∧
    fsRead (runGenerator
        (⟨false, some "sg-requester.ts", "SchemaSyncRequester", true,
          "client", true, true⟩ : RunCfg) "out"
        [⟨"pets", "TY", "FN", "HK", ["createGetPetFunction"],
          ["createUseGetPetHook"]⟩] [])
        (clientPath
          (⟨false, some "sg-requester.ts", "SchemaSyncRequester", true,
            "client", true, true⟩ : RunCfg) "out"
          ⟨"pets", "TY", "FN", "HK", ["createGetPetFunction"],
           ["createUseGetPetHook"]⟩) =
      some (clientModuleContent
        (⟨false, some "sg-requester.ts", "SchemaSyncRequester", true,
          "client", true, true⟩ : RunCfg)
        ⟨"pets", "TY", "FN", "HK", ["createGetPetFunction"],
         ["createUseGetPetHook"]⟩
        ((⟨false, some "sg-requester.ts", "SchemaSyncRequester", true,
          "client", true, true⟩ : RunCfg).generateHooks ∧
          ("HK" : String).trim ≠ "")) := by
  have h := C10_scaffold_once_client_overwritten
    (⟨false, some "sg-requester.ts", "SchemaSyncRequester", true,
      "client", true, true⟩ : RunCfg) "out"
    [⟨"pets", "TY", "FN", "HK", ["createGetPetFunction"],
      ["createUseGetPetHook"]⟩] [] "out/sg-requester.ts"
    (by decide) (by decide) (by decide) (by decide)
  exact ⟨h.2.1 (by decide) (by decide),
    h.2.2.2 ⟨"pets", "TY", "FN", "HK", ["createGetPetFunction"],
      ["createUseGetPetHook"]⟩ (by decide) (by decide)⟩
